import Mathlib

/-!
# Verification of the chess rule engine (`chess_core.py`)

This file is a shallow embedding of the rule-engine core of the repository
(`src/chess_core.py`) together with theorems about it.

Modelling conventions:

* Board squares are `Pos := Nat × Nat` in `(row, col)` form, matching the
  numpy index convention of the source (`field_names[row][col]`, row 0 is
  rank 1, col 0 is file A).  Field labels are real two-character strings,
  converted at the API boundary exactly as `label2index` / `index2label`
  do; the internal routines, which in Python convert a label on every use,
  here carry the already-converted index (every internal conversion of the
  same label yields the same index, so this is observationally equal).
* Pieces are registry entries referenced by their index (`PieceId`) in
  `GameOps.pieces`; the board is an 8×8 grid of optional piece ids
  (`board_objects` holds object references; object identity = registry
  index).  A piece's `current_field`/`field_idx` pair is one `Option Pos`
  (`none` models the killed-piece state `'Out of field'` / `None`).
  The `'Rook' in name` / `'Knight' in name` tests of the source are the
  `kind` field (piece long names are `'<Class> <Color> ...'`); the
  `'1' in rook.name` / `'2' in rook.name` tests are the `has1` / `has2`
  flags (promoted pieces are named `'<Class> <Color>'`, so both are false
  for them).
* Operations that in Python raise an exception on some input
  (`label2index` on a missing label, attribute access on `None`, indexing
  an empty `steps` list, ...) return `Option`: `none` is an escaped
  exception.
* GUI-only effects (`board_gui.*`, `output_text`) and pickle persistence
  (`save_state` / `load_state`) touch no rule state and are omitted; the
  spots are marked in comments.
* `check_move` / `check_check` / `check_through_check` are mutually
  recursive in the source (only through the castling branch, which on the
  inner calls always runs with `is_rochade == False`).  They are embedded
  fuel-stratified: `checkMoveFuel (fuel+1)` gives the castling branch a
  `check_through_check` built from `checkMoveFuel fuel`; fuel 0 with the
  branch actually taken yields `none`.  On every execution the inner
  calls run with `isRochade = false`, so any positive fuel computes the
  Python semantics.
-/

namespace Chess

/-- Board index `(row, col)`, each coordinate `0..7` on the real board. -/
abbrev Pos := Nat × Nat

/-- A move vector `(vertical, horizontal)` as in `get_move_step`. -/
abbrev Vec := Int × Int

/-- Registry index into `GameOps.pieces`. -/
abbrev PieceId := Nat

/-- The six piece classes of the source. -/
inductive Kind where
  | pawn | rook | knight | bishop | queen | king
  deriving DecidableEq, Repr

/-- One entry of the `GameOps.pieces` registry: the mutable per-piece
attributes used by the game logic. -/
structure Piece where
  kind : Kind
  color : Nat                 -- 1 = white, 2 = black
  has1 : Bool                 -- `'1' in name`
  has2 : Bool                 -- `'2' in name`
  isAlive : Bool
  pos : Option Pos            -- `current_field` / `field_idx` (`none` = killed)
  lastField : Pos
  moveIdx : Nat               -- `move_idx`
  possibleMoves : List Vec
  receiveEnPassant : Bool
  performEnPassant : Bool
  enPassantIdx : Option Pos   -- `(None, None)` initial value modelled as `none`
  deriving DecidableEq, Repr

/-- Embeds `board_objects`: 8×8 grid of optional piece references. -/
abbrev Board := List (List (Option PieceId))

/-- The class-level mutable state of `GameOps` relevant to the game logic
(`current_color` is derived from `move_count` parity and not stored;
`board_gui`, `verbose`, `show_warnings`, `save_file`, `promotion_counter`
feed only GUI/naming/persistence). -/
structure GameState where
  board : Board
  pieces : List Piece
  moveCount : Nat
  wasChecked : Bool × Bool          -- `was_checked` [white, black]
  isRochade : Bool
  isRochadeGui : Bool
  rochadeRook : Option PieceId
  rochadeRookMoveTo : Option Pos
  promotePiece : Option PieceId
  isCheckmate : Bool
  deriving DecidableEq, Repr

/-! ## Coordinate codec (`get_field_names`, `label2index`, `index2label`) -/

/-- Embeds `column_chars`. -/
def columnChars : List Char := ['A', 'B', 'C', 'D', 'E', 'F', 'G', 'H']

/-- Embeds `row_chars` (the characters `'1'..'8'`). -/
def rowChars : List Char := ['1', '2', '3', '4', '5', '6', '7', '8']

/-- Embeds `field_names[i][j] = '{col}{row}'.format(column_chars[j], row_chars[i])`. -/
def fieldName (i j : Nat) : String :=
  String.mk [columnChars.getD j '?', rowChars.getD i '?']

/-- All 64 board indices in row-major (numpy `np.where` / `np.ndenumerate`)
order. -/
def allIdx : List Pos :=
  (List.range 8).flatMap fun i => (List.range 8).map fun j => (i, j)

/-- Embeds `label2index`: position of the first (row-major) entry of `field_names`
equal to the label; `none` models the `IndexError` escaping from
`np.where` when the label does not exist. -/
def label2index (lab : String) : Option Pos :=
  allIdx.find? fun p => fieldName p.1 p.2 == lab

/-- Embeds `index2label` (the source applies it only to valid indices; out-of-range
components hit the `'?'` default of `fieldName`). -/
def index2label (p : Pos) : String := fieldName p.1 p.2

/-- Embeds `move_to.upper()`: per-character ASCII uppercasing (all labels the
game compares against are ASCII). -/
def labUpper (lab : String) : String :=
  String.mk (lab.data.map Char.toUpper)

/-- A label is exactly one file character `A`–`H` followed by one rank
character `1`–`8`. -/
def wellFormedLabel (lab : String) : Bool :=
  match lab.data with
  | [c, r] => columnChars.contains c && rowChars.contains r
  | _ => false

/-! ## Registry and board helpers -/

/-- Look a piece up by registry index. -/
def getPiece (s : GameState) (pid : PieceId) : Option Piece :=
  s.pieces.get? pid

/-- Replace the piece at a registry index (out-of-range: no change, which
mirrors that Python cannot reach this case through a live reference). -/
def setPiece (s : GameState) (pid : PieceId) (p : Piece) : GameState :=
  { s with pieces := s.pieces.set pid p }

/-- Mutate one piece through its reference. -/
def updPiece (s : GameState) (pid : PieceId) (f : Piece → Piece) : GameState :=
  match getPiece s pid with
  | some p => setPiece s pid (f p)
  | none => s

/-- Read a board cell. -/
def boardGet (b : Board) (p : Pos) : Option PieceId :=
  (b.getD p.1 []).getD p.2 none

/-- Write a board cell. -/
def boardSet (b : Board) (p : Pos) (v : Option PieceId) : Board :=
  b.set p.1 ((b.getD p.1 []).set p.2 v)

/-! ## Move geometry (`get_move_step`, `get_intermediate_field_names`,
`is_straight`, `is_diagonal`) -/

/-- Embeds `get_move_step`: requested vector = destination − source index. -/
def moveStep (src dst : Pos) : Vec :=
  ((dst.1 : Int) - (src.1 : Int), (dst.2 : Int) - (src.2 : Int))

/-- Embeds `is_diagonal`. -/
def isDiagonal (v : Vec) : Bool :=
  v.1.natAbs == v.2.natAbs && v.1 != 0

/-- Embeds `is_straight`: exactly one non-zero axis (`bool(v) != bool(h)`). -/
def isStraight (v : Vec) : Bool :=
  (v.1 != 0) != (v.2 != 0)

/-- The accumulation loop of `get_intermediate_field_names`: `k` more steps
of size `unit` starting after `cur`.  The source adds
`int(move_vector[i] / step_count)` per axis per iteration; for every vector
that can pass the move-set membership test of a non-Knight piece the
division is exact, so integer division is the Python value. -/
def interLoop (unit : Vec) : Nat → Pos → List Pos
  | 0, _ => []
  | k + 1, cur =>
    let nxt : Pos := (((cur.1 : Int) + unit.1).toNat, ((cur.2 : Int) + unit.2).toNat)
    nxt :: interLoop unit k nxt

/-- Embeds `get_intermediate_field_names` (Knight overrides the list with just the
destination: it jumps over). -/
def intermediateSteps (kind : Kind) (src dst : Pos) : List Pos :=
  if kind = Kind.knight then [dst]
  else
    let v := moveStep src dst
    let n := max v.1.natAbs v.2.natAbs
    interLoop (v.1 / (n : Int), v.2 / (n : Int)) n src

/-! ## `check_field`, `kill_piece`, `resurrect_piece`, `check_pawn2x` -/

/-- Field-validity codes of `GameOps.codes`. -/
def codeInvalid : Nat := 0
/-- Embeds `codes['empty']`. -/
def codeEmpty : Nat := 1
/-- Embeds `codes['opponent']`. -/
def codeOpponent : Nat := 2

/-- Embeds `check_field` (the warning text is GUI/log output only). -/
def checkFieldCode (s : GameState) (selfPid : PieceId) (fld : Pos)
    (pieceColor : Nat) : Nat :=
  match boardGet s.board fld with
  | some q =>
    match getPiece s q with
    | some qp => if pieceColor = qp.color then codeInvalid else codeOpponent
    | none => codeInvalid  -- dangling id: impossible for a board built from pieces
  | none =>
    match getPiece s selfPid with
    | some p => if p.performEnPassant then codeOpponent else codeEmpty
    | none => codeEmpty

/-- Embeds `kill_piece`: clears the enemy's cell (unless replacing) and marks it
dead (`is_alive = False`, `current_field = 'Out of field'`,
`field_idx = None`). -/
def killPiece (s : GameState) (eid : PieceId) (replace : Bool) : GameState :=
  match getPiece s eid with
  | none => s
  | some e =>
    let s :=
      if replace then s
      else
        match e.pos with
        | some ep => { s with board := boardSet s.board ep none }
        | none => s
    updPiece s eid fun q => { q with isAlive := false, pos := none }

/-- Embeds `resurrect_piece`: revives the enemy at the mover's current field. -/
def resurrectPiece (s : GameState) (selfPid eid : PieceId) : GameState :=
  match getPiece s selfPid with
  | none => s
  | some sp => updPiece s eid fun e => { e with isAlive := true, pos := sp.pos }

/-- Embeds `check_pawn2x`: a Pawn whose current field label contains `'1'` or
`'8'` (i.e. an alive pawn on row 0 or row 7; the label of a killed piece is
`'Out of field'`, which contains neither digit). -/
def checkPawn2x (s : GameState) (pid : PieceId) : Bool :=
  match getPiece s pid with
  | some p =>
    p.kind == Kind.pawn &&
      (match p.pos with
       | some ps => ps.1 == 0 || ps.1 == 7
       | none => false)
  | none => false

/-! ## Move sets (`move_types` of each subclass, `check_rochade`,
`set_rochade`) -/

/-- Embeds `Pawn.normal_moves`. -/
def pawnNormalMoves : List Vec := [(1, 0)]
/-- Embeds `Pawn.special_moves`. -/
def pawnSpecialMoves : List Vec := [(2, 0)]
/-- Embeds `Pawn.kill_moves`. -/
def pawnKillMoves : List Vec := [(1, -1), (1, 1)]
/-- Embeds `Knight.normal_moves`. -/
def knightMoves : List Vec :=
  [(2, -1), (2, 1), (1, 2), (-1, 2), (-2, -1), (-2, 1), (1, -2), (-1, -2)]
/-- Embeds `King.normal_moves`. -/
def kingMoves : List Vec :=
  [(1, 0), (1, 1), (0, 1), (-1, 1), (-1, 0), (-1, -1), (0, -1), (1, -1)]
/-- Embeds `King.rochade`. -/
def kingRochade : List Vec := [(0, -2), (0, 2)]

/-- Embeds `was_checked[color - 1]`. -/
def wasCheckedAt (s : GameState) (color : Nat) : Bool :=
  if color = 1 then s.wasChecked.1 else s.wasChecked.2

/-- Embeds `King.check_rochade`.  The rook condition keeps the Python operator
precedence: `(move_h > 0 and '2' in name) or ((move_h < 0 and '1' in name)
and move_idx == 0)` — `and` binds tighter than `or`, so the
`move_idx == 0` test only guards the queenside disjunct. -/
def checkRochade (s : GameState) (color : Nat) (mv : Vec) (isTest : Bool) :
    Bool × Option PieceId :=
  if (mv ∈ kingRochade) ∧ ¬(wasCheckedAt s color) ∧ ¬isTest then
    match (List.range s.pieces.length).find? (fun q =>
        match getPiece s q with
        | some qp =>
          qp.kind == Kind.rook && qp.color == color && qp.isAlive &&
            ((decide (mv.2 > 0) && qp.has2) ||
             (decide (mv.2 < 0) && qp.has1 && qp.moveIdx == 0))
        | none => false) with
    | some q => (true, some q)
    | none => (false, none)
  else (false, none)

/-- Embeds `King.set_rochade`: record the castling context
(`rochade_idx = (row, col + move_h / 2)`, exact division by 2). -/
def setRochade (s : GameState) (src : Pos) (mv : Vec) (rook : Option PieceId) :
    GameState :=
  { s with
    isRochade := true
    isRochadeGui := true
    rochadeRook := rook
    rochadeRookMoveTo := some (src.1, ((src.2 : Int) + mv.2 / 2).toNat) }

/-- The move set a pawn starts from (`normal + special + kill` on the first
move, else `normal + kill`; negated for black). -/
def pawnBaseMoves (mIdx color : Nat) : List Vec :=
  let base :=
    if mIdx = 0 then pawnNormalMoves ++ pawnSpecialMoves ++ pawnKillMoves
    else pawnNormalMoves ++ pawnKillMoves
  if color = 2 then base.map (fun m => (-m.1, -m.2)) else base

/-- Embeds `Pawn.move_types` given the piece and its current index. -/
def pawnMoveTypes (s : GameState) (pid : PieceId) (p : Piece) (src : Pos)
    (dst : Pos) (isTest : Bool) : GameState :=
  let pm := pawnBaseMoves p.moveIdx p.color
  let killMoves := pm.drop (pm.length - 2)   -- `possible_moves[-2:]`
  let mv := moveStep src dst
  -- `self.perform_en_passant = False`
  let p := { p with performEnPassant := false }
  -- two-square advance primes en passant (only outside simulation)
  let p :=
    if mv.1.natAbs = 2 ∧ ¬isTest then { p with receiveEnPassant := true } else p
  if mv ∈ killMoves then
    -- a Pawn may only move diagonally onto a piece, or en passant
    match boardGet s.board dst with
    | some _ => setPiece s pid { p with possibleMoves := pm }
    | none =>
      let epIdx : Pos := (src.1, dst.2)
      match boardGet s.board epIdx with
      | some eq' =>
        match getPiece s eq' with
        | some ep =>
          if ep.kind == Kind.pawn && ep.receiveEnPassant &&
              !(ep.color == p.color) then
            setPiece s pid
              { p with performEnPassant := true, enPassantIdx := some epIdx,
                       possibleMoves := pm }
          else setPiece s pid { p with possibleMoves := [] }
        | none => setPiece s pid { p with possibleMoves := [] }
      | none => setPiece s pid { p with possibleMoves := [] }
  else
    -- a Pawn may only move straight onto an empty field
    match boardGet s.board dst with
    | some _ => setPiece s pid { p with possibleMoves := [] }
    | none => setPiece s pid { p with possibleMoves := pm }

/-- Embeds `move_types` dispatch: each subclass's override, updating the piece (and
for a castling King the global castling context).  `none` models the
exception Python raises when `label2index` is applied to the field of a
missing/killed piece. -/
def moveTypes (s : GameState) (pid : PieceId) (dst : Pos) (isTest : Bool) :
    Option GameState :=
  match getPiece s pid with
  | none => none
  | some p =>
    match p.pos with
    | none => none
    | some src =>
      match p.kind with
      | Kind.pawn => some (pawnMoveTypes s pid p src dst isTest)
      | Kind.rook =>
        let mv := moveStep src dst
        some (if isStraight mv then setPiece s pid { p with possibleMoves := [mv] } else s)
      | Kind.knight => some (setPiece s pid { p with possibleMoves := knightMoves })
      | Kind.bishop =>
        let mv := moveStep src dst
        some (if isDiagonal mv then setPiece s pid { p with possibleMoves := [mv] } else s)
      | Kind.queen =>
        let mv := moveStep src dst
        some (if isDiagonal mv || isStraight mv then
                setPiece s pid { p with possibleMoves := [mv] }
              else s)
      | Kind.king =>
        some
          (if p.moveIdx = 0 then
            let mv := moveStep src dst
            match checkRochade s p.color mv isTest with
            | (true, rook) =>
              setRochade
                (setPiece s pid { p with possibleMoves := kingMoves ++ [mv] })
                src mv rook
            | (false, _) => setPiece s pid { p with possibleMoves := kingMoves }
          else setPiece s pid { p with possibleMoves := kingMoves })

/-! ## Move executor (`move_piece`) and revert (`redo_move`) -/

/-- The body of `move_piece` up to (and excluding) the rochade/promotion
tail: empty the source cell, update `last_field`/`current_field`/
`field_idx`, resolve a capture, write the mover into the destination.
Returns the pre-move board copy (`mate_board`). -/
def movePieceCore (s : GameState) (pid : PieceId) (dst : Pos)
    (validity : Nat) : Option (GameState × Board) :=
  match getPiece s pid with
  | none => none
  | some p =>
    match p.pos with
    | none => none
    | some src =>
      let mate := s.board
      let s := { s with board := boardSet s.board src none }
      let s := updPiece s pid fun q => { q with lastField := src, pos := some dst }
      let killRes : Option GameState :=
        if validity = codeOpponent then
          match getPiece s pid with
          | some p1 =>
            if p1.performEnPassant then
              match p1.enPassantIdx with
              | some ep =>
                match boardGet s.board ep with
                | some vid => some (killPiece s vid false)
                | none => none       -- `kill_piece(None)`: AttributeError
              | none => none         -- board indexed with `(None, None)`: TypeError
            else
              match boardGet s.board dst with
              | some vid => some (killPiece s vid false)
              | none => none         -- `kill_piece(None)`: AttributeError
          | none => none
        else some s
      match killRes with
      | none => none
      | some s =>
        some ({ s with board := boardSet s.board dst (some pid) }, mate)

/-- Embeds `move_piece` with `do_rochade=False` (the shape of the recursive rook
call): core steps plus the pawn-promotion marker. -/
def movePieceNoR (s : GameState) (pid : PieceId) (dst : Pos)
    (validity : Nat) : Option (GameState × Board) :=
  match movePieceCore s pid dst validity with
  | none => none
  | some (s, mate) =>
    some ({ s with promotePiece := if checkPawn2x s pid then some pid else none },
      mate)

/-- Embeds `move_piece`: on `do_rochade` additionally moves the recorded rook
(`rochade_rook.move_piece(rochade_rook_move_to, empty, do_rochade=False)`),
then records/clears the pawn-promotion marker. -/
def movePiece (s : GameState) (pid : PieceId) (dst : Pos) (validity : Nat)
    (doRochade : Bool) : Option (GameState × Board) :=
  match movePieceCore s pid dst validity with
  | none => none
  | some (s, mate) =>
    let afterR : Option GameState :=
      if doRochade then
        match s.rochadeRook with
        | none => none               -- `None.move_piece`: AttributeError
        | some r =>
          match s.rochadeRookMoveTo with
          | none => none
          | some rto =>
            match movePieceNoR s r rto codeEmpty with
            | none => none
            | some (s, _mateRook) => some s
      else some s
    match afterR with
    | none => none
    | some s =>
      some ({ s with promotePiece := if checkPawn2x s pid then some pid else none },
        mate)

/-- One iteration of the `np.ndenumerate` loop of `redo_move`: write the
snapshot cell back and point the piece on it (if any) at its cell. -/
def redoStep (mate : Board) (acc : GameState) (idx : Pos) : GameState :=
  let acc := { acc with board := boardSet acc.board idx (boardGet mate idx) }
  match boardGet mate idx with
  | some q => updPiece acc q fun qq => { qq with pos := some idx }
  | none => acc

/-- The loop of `redo_move` over a list of cells. -/
def redoLoopAux (mate : Board) : List Pos → GameState → GameState
  | [], s => s
  | idx :: rest, s => redoLoopAux mate rest (redoStep mate s idx)

/-- The `np.ndenumerate` loop of `redo_move` over all 64 cells in
row-major order. -/
def redoLoop (mate : Board) (s : GameState) : GameState :=
  redoLoopAux mate allIdx s

/-- Embeds `redo_move`: resurrect a capture victim from the snapshot's destination
cell, move the piece back to `last_field`, restore the board from the
snapshot, optionally clear the castling flags.  (`is_test` only gates GUI
feedback.)  `none` is the `AttributeError` raised by
`resurrect_piece(None)` when the snapshot has no piece on the mover's
current square — which is the case for an en-passant capture. -/
def redoMove (s : GameState) (pid : PieceId) (mate : Board) (validity : Nat)
    (_isTest : Bool) (resetRochade : Bool) : Option GameState :=
  match getPiece s pid with
  | none => none
  | some p =>
    let res : Option GameState :=
      if validity = codeOpponent then
        match p.pos with
        | none => none               -- `mate_board[None]`: TypeError
        | some cur =>
          match boardGet mate cur with
          | some eid => some (resurrectPiece s pid eid)
          | none => none             -- `resurrect_piece(None)`: AttributeError
      else some s
    match res with
    | none => none
    | some s =>
      let s := updPiece s pid fun q => { q with pos := some q.lastField }
      let s := redoLoop mate s
      some (if resetRochade then
              { s with isRochade := false, isRochadeGui := false }
            else s)

/-! ## Legality check and check detection
(`check_move`, `check_check`, `check_through_check`)

These three are mutually recursive in the source, but only through the
`if GameOps.is_rochade:` branch of `check_move`, and `check_through_check`
clears `is_rochade` before its inner `check_check`, so the recursion depth
is bounded by the fuel below on every real execution; any positive fuel
computes the Python semantics. -/

/-- Classification message of `check_move` (info/error text). -/
inductive MoveMsg where
  | noMsg | moveError | intermediateInvalid | rochadeThroughCheck
  deriving DecidableEq, Repr

/-- Embeds `check_move` parameterised over the castling-path checker `ctc`
(instantiated with `check_through_check` at the next lower fuel). -/
def checkMoveF
    (ctc : GameState → PieceId → List Pos → Option (GameState × Nat × MoveMsg))
    (s : GameState) (pid : PieceId) (dst : Pos) (color : Nat)
    (isTest : Bool) : Option (GameState × Nat × MoveMsg) :=
  match moveTypes s pid dst isTest with
  | none => none
  | some s1 =>
    match getPiece s1 pid with
    | none => none
    | some p1 =>
      match p1.pos with
      | none => none
      | some src =>
        let mv := moveStep src dst
        if mv ∉ p1.possibleMoves then some (s1, codeInvalid, MoveMsg.moveError)
        else
          let steps := intermediateSteps p1.kind src dst
          match steps.getLast? with
          | none => none             -- `steps[-1]` on an empty list: IndexError
          | some lastStep =>
            let inter := steps.dropLast
            if inter.any (fun st => !(checkFieldCode s1 pid st color == codeEmpty))
            then some (s1, codeInvalid, MoveMsg.intermediateInvalid)
            else
              let afterRoch : Option (GameState × Bool) :=
                if s1.isRochade then
                  match ctc s1 pid inter with
                  | none => none
                  | some (s2, code, _) => some (s2, code == codeInvalid)
                else some (s1, false)
              match afterRoch with
              | none => none
              | some (s2, earlyInvalid) =>
                if earlyInvalid then
                  some (s2, codeInvalid, MoveMsg.rochadeThroughCheck)
                else
                  let endCode := checkFieldCode s2 pid lastStep color
                  if endCode = codeOpponent then
                    match getPiece s2 pid with
                    | none => none
                    | some p2 =>
                      let enemyIdx : Option Pos :=
                        if p2.performEnPassant then p2.enPassantIdx
                        else some lastStep
                      match enemyIdx with
                      | none => none -- board indexed with `(None, None)`
                      | some ei =>
                        match boardGet s2.board ei with
                        | none => none -- `None.short_name`: AttributeError
                        | some _eid => some (s2, codeOpponent, MoveMsg.noMsg)
                  else some (s2, endCode, MoveMsg.noMsg)

/-- The attacker loop of `check_check`, threading the state (each
`check_move` call mutates the examined piece's move set). -/
def ccLoopF
    (cm : GameState → PieceId → Pos → Nat → Bool → Option (GameState × Nat × MoveMsg))
    (moveTo : Pos) (color : Nat) :
    GameState → List PieceId → Option (GameState × Bool)
  | s, [] => some (s, false)
  | s, q :: rest =>
    match getPiece s q with
    | none => none
    | some qp =>
      if qp.color ≠ color ∧ qp.isAlive then
        match cm s q moveTo qp.color true with
        | none => none
        | some (s', code, _) =>
          if code ≠ codeInvalid then some (s', true)
          else ccLoopF cm moveTo color s' rest
      else ccLoopF cm moveTo color s rest

/-- Embeds `check_check` parameterised over the `check_move` to use: locate the
first King of the colour (aliveness is not tested by the source), then ask
every alive opposing piece whether it attacks the King's square. -/
def checkCheckF
    (cm : GameState → PieceId → Pos → Nat → Bool → Option (GameState × Nat × MoveMsg))
    (s : GameState) (color : Nat) : Option (GameState × Bool) :=
  match (List.range s.pieces.length).find? (fun q =>
      match getPiece s q with
      | some qp => qp.kind == Kind.king && qp.color == color
      | none => false) with
  | none => none                     -- no king: `move_to` unbound (NameError)
  | some kpid =>
    match getPiece s kpid with
    | none => none
    | some kp =>
      match kp.pos with
      | none => none                 -- killed king: `label2index('Out of field')`
      | some moveTo => ccLoopF cm moveTo color s (List.range s.pieces.length)

/-- Embeds `check_through_check`: simulate the King stepping through each
intermediate square, testing `check_check` there; clears the castling
flags for the simulation and restores them when the square is safe. -/
def checkThroughCheckF
    (cm : GameState → PieceId → Pos → Nat → Bool → Option (GameState × Nat × MoveMsg))
    (pid : PieceId) :
    GameState → List Pos → Option (GameState × Nat × MoveMsg)
  | s, [] => some (s, codeEmpty, MoveMsg.noMsg)
  | s, st :: rest =>
    let s := { s with isRochade := false, isRochadeGui := false }
    match movePieceNoR s pid st codeEmpty with
    | none => none
    | some (s, mate) =>
      match getPiece s pid with
      | none => none
      | some p =>
        match checkCheckF cm s p.color with
        | none => none
        | some (s, isChk) =>
          match redoMove s pid mate codeEmpty false isChk with
          | none => none
          | some s =>
            if isChk then some (s, codeInvalid, MoveMsg.rochadeThroughCheck)
            else
              checkThroughCheckF cm pid
                { s with isRochadeGui := true, isRochade := true } rest

/-- Fuel-stratified `check_move`. -/
def checkMoveFuel :
    Nat → GameState → PieceId → Pos → Nat → Bool →
      Option (GameState × Nat × MoveMsg)
  | 0 => checkMoveF fun _ _ _ => none
  | fuel + 1 =>
    checkMoveF fun s pid inter =>
      checkThroughCheckF (checkMoveFuel fuel) pid s inter

/-- Embeds `check_move` entry point. -/
def checkMove (fuel : Nat) : GameState → PieceId → Pos → Nat → Bool →
    Option (GameState × Nat × MoveMsg) :=
  checkMoveFuel fuel

/-- Embeds `check_check` entry point. -/
def checkCheck (fuel : Nat) (s : GameState) (color : Nat) :
    Option (GameState × Bool) :=
  checkCheckF (checkMoveFuel fuel) s color

/-! ## Orchestrator (`move_counter`, `reset_en_passant`, `invalid_request`,
`execute_move`, `check_checkmate`, `move`) -/

/-- Embeds `move_counter`: bump the mover's (and on rochade the rook's)
`move_idx` and the global move count.  `current_color` is derived from the
parity of `move_count` and not stored. -/
def moveCounter (s : GameState) (pid : PieceId) : Option GameState :=
  let s := updPiece s pid fun p => { p with moveIdx := p.moveIdx + 1 }
  let s := { s with moveCount := s.moveCount + 1 }
  if s.isRochade then
    match s.rochadeRook with
    | none => none                   -- `None.move_idx`: AttributeError
    | some r => some (updPiece s r fun p => { p with moveIdx := p.moveIdx + 1 })
  else some s

/-- Clear `receive_en_passant` on every piece other than the mover
(helper for `reset_en_passant`). -/
def clearRecvAux (pid : PieceId) : Nat → List Piece → List Piece
  | _, [] => []
  | i, p :: ps =>
    (if i = pid then p else { p with receiveEnPassant := false }) ::
      clearRecvAux pid (i + 1) ps

/-- Embeds `reset_en_passant`. -/
def resetEnPassant (s : GameState) (pid : PieceId) : GameState :=
  { s with pieces := clearRecvAux pid 0 s.pieces }

/-- The request errors produced by `invalid_request` (the strings it
assembles).  Later checks overwrite earlier ones, so `FieldError` wins over
`PieceError` wins over `TurnError`. -/
inductive ReqError where
  | turnError | pieceError | fieldError
  deriving DecidableEq, Repr

/-- Embeds `invalid_request`. -/
def invalidRequest (s : GameState) (p : Piece) (lab : String) :
    Option ReqError :=
  let e : Option ReqError := none
  let e := if ¬(s.moveCount % 2 = p.color - 1) then some ReqError.turnError else e
  let e := if ¬p.isAlive then some ReqError.pieceError else e
  let e := if label2index lab = none then some ReqError.fieldError else e
  e

/-- Embeds `execute_move` with `is_test=True`: a trial that is always reverted
(both the self-check branch and the escaping branch call `redo_move` with
the default `reset_rochade=True`), used by `check_checkmate`. -/
def executeMoveT (fuel : Nat) (s : GameState) (pid : PieceId) (dst : Pos) :
    Option (GameState × Bool) :=
  match getPiece s pid with
  | none => none
  | some p =>
    match checkMove fuel s pid dst p.color true with
    | none => none
    | some (s1, validity, _msg) =>
      if validity = codeInvalid then some (s1, false)
      else
        match movePiece s1 pid dst validity s1.isRochade with
        | none => none
        | some (s2, mate) =>
          match checkCheck fuel s2 p.color with
          | none => none
          | some (s3, isChk) =>
            match redoMove s3 pid mate validity true true with
            | none => none
            | some s4 => some (s4, !isChk)

/-- Inner loop of `check_checkmate`: try every one of the 64 destination
squares with one piece, stopping at the first escaping move. -/
def cmInner (fuel : Nat) (pid : PieceId) :
    GameState → List Pos → Option (GameState × Bool)
  | s, [] => some (s, false)
  | s, dstp :: rest =>
    match executeMoveT fuel s pid dstp with
    | none => none
    | some (s', esc) =>
      if esc then some (s', true) else cmInner fuel pid s' rest

/-- Outer loop of `check_checkmate` over the registry: for each alive piece
of the colour, try all squares; on the first escape record
`was_checked[color-1] = True` and stop; if nothing escapes, set
`is_checkmate`. -/
def cmOuter (fuel : Nat) (color : Nat) :
    GameState → List PieceId → Option GameState
  | s, [] => some { s with isCheckmate := true }
  | s, q :: rest =>
    match getPiece s q with
    | none => none
    | some qp =>
      if qp.color = color ∧ qp.isAlive then
        match cmInner fuel q s allIdx with
        | none => none
        | some (s', escaped) =>
          if escaped then
            some { s' with
              wasChecked :=
                if color = 1 then (true, s'.wasChecked.2)
                else (s'.wasChecked.1, true) }
          else cmOuter fuel color s' rest
      else cmOuter fuel color s rest

/-- Embeds `check_checkmate`. -/
def checkCheckmate (fuel : Nat) (s : GameState) (color : Nat) :
    Option GameState :=
  match checkCheck fuel s color with
  | none => none
  | some (s1, isChk) =>
    if ¬isChk then some s1
    else cmOuter fuel color s1 (List.range s1.pieces.length)

/-- Embeds `execute_move` with `is_test=False`: validate, trial, self-check test,
then revert or commit (commit = promotion prompt [GUI], `move_counter`,
checkmate test on the opponent).  The returned `Bool` is `escapes_check`. -/
def executeMove (fuel : Nat) (s : GameState) (pid : PieceId) (dst : Pos) :
    Option (GameState × Bool) :=
  match getPiece s pid with
  | none => none
  | some p =>
    match checkMove fuel s pid dst p.color false with
    | none => none
    | some (s1, validity, _msg) =>
      if validity = codeInvalid then some (s1, false)
      else
        match movePiece s1 pid dst validity s1.isRochade with
        | none => none
        | some (s2, mate) =>
          match checkCheck fuel s2 p.color with
          | none => none
          | some (s3, isChk) =>
            if isChk then
              match redoMove s3 pid mate validity false true with
              | none => none
              | some s4 => some (s4, false)
            else
              -- `board_gui.promotion_choice` is a GUI prompt; the promotion
              -- itself is performed later by the GUI via `promote_pawn`.
              match moveCounter s3 pid with
              | none => none
              | some s4 =>
                match checkCheckmate fuel s4 (if p.color = 1 then 2 else 1) with
                | none => none
                | some s5 => some (s5, true)

/-- Embeds `move`: uppercase the label, run `invalid_request` (reject with no
state change), else `execute_move` followed by `reset_en_passant`.
Returns the request error, if any. -/
def moveReq (fuel : Nat) (s : GameState) (pid : PieceId) (lab : String) :
    Option (GameState × Option ReqError) :=
  match getPiece s pid with
  | none => none
  | some p =>
    let lab := labUpper lab
    match invalidRequest s p lab with
    | some err => some (s, some err)
    | none =>
      match label2index lab with
      | none => none                 -- unreachable: `invalid_request` checked
      | some dst =>
        match executeMove fuel s pid dst with
        | none => none
        | some (s1, _esc) => some (resetEnPassant s1 pid, none)

/-! ## Registry construction and promotion
(`__init__`, `promote_pawn`) -/

/-- Embeds `GameOps.__init__`: append a fresh piece to the registry (the board is
filled separately by `initialize_board`). -/
def registerPiece (s : GameState) (kind : Kind) (color : Nat)
    (has1 has2 : Bool) (startPos : Pos) : GameState :=
  { s with
    pieces := s.pieces ++
      [{ kind := kind, color := color, has1 := has1, has2 := has2,
         isAlive := true, pos := some startPos, lastField := startPos,
         moveIdx := 0, possibleMoves := [], receiveEnPassant := false,
         performEnPassant := false, enPassantIdx := none }] }

/-- Embeds `promote_pawn`: instantiate the promotion piece on the pawn's square
(its long name `'<Class> <Color>'` contains neither `'1'` nor `'2'`),
point the board cell at it, kill the pawn with `replace=True`, and run the
checkmate test against the opponent.  The promotion counters feed only the
short name; GUI image handling and `save_state` are omitted. -/
def promotePawn (fuel : Nat) (s : GameState) (pawnPid : PieceId) (k : Kind) :
    Option GameState :=
  match getPiece s pawnPid with
  | none => none
  | some pawn =>
    match pawn.pos with
    | none => none                   -- `label2index('Out of field')`
    | some ppos =>
      let newId := s.pieces.length
      let s := registerPiece s k pawn.color false false ppos
      let s := { s with board := boardSet s.board ppos (some newId) }
      let s := killPiece s pawnPid true
      checkCheckmate fuel s (if pawn.color = 1 then 2 else 1)

/-- The registry-touching operations of the claim about monotone growth. -/
inductive RegOp where
  | register (kind : Kind) (color : Nat) (has1 has2 : Bool) (startPos : Pos)
  | kill (eid : PieceId) (replace : Bool)
  | resurrect (selfPid eid : PieceId)
  | promote (fuel : Nat) (pawnPid : PieceId) (k : Kind)

/-- Apply one registry operation. -/
def applyRegOp (s : GameState) : RegOp → Option GameState
  | RegOp.register kind color has1 has2 startPos =>
    some (registerPiece s kind color has1 has2 startPos)
  | RegOp.kill e r => some (killPiece s e r)
  | RegOp.resurrect sp e => some (resurrectPiece s sp e)
  | RegOp.promote fuel pid k => promotePawn fuel s pid k

/-- Apply a sequence of registry operations. -/
def applyRegOps : GameState → List RegOp → Option GameState
  | s, [] => some s
  | s, op :: ops =>
    match applyRegOp s op with
    | none => none
    | some s' => applyRegOps s' ops

/-! ## Concrete positions used as witnesses and counterexamples -/

/-- A freshly constructed piece (the attribute values `__init__` sets). -/
def basePiece (k : Kind) (c : Nat) (ps : Pos) : Piece :=
  { kind := k, color := c, has1 := false, has2 := false, isAlive := true,
    pos := some ps, lastField := ps, moveIdx := 0, possibleMoves := [],
    receiveEnPassant := false, performEnPassant := false, enPassantIdx := none }

/-- The empty 8×8 board. -/
def emptyBoard : Board := List.replicate 8 (List.replicate 8 (none : Option PieceId))

/-- Build a board from an association list of occupied squares. -/
def boardOf (l : List (Pos × PieceId)) : Board :=
  l.foldl (fun b pr => boardSet b pr.1 (some pr.2)) emptyBoard

/-- A game state with empty board and registry and the initial globals. -/
def baseState : GameState :=
  { board := emptyBoard, pieces := [], moveCount := 0,
    wasChecked := (false, false), isRochade := false, isRochadeGui := false,
    rochadeRook := none, rochadeRookMoveTo := none, promotePiece := none,
    isCheckmate := false }

/-- Board position for C1: White king A5, White pawn E5, Black pawn D5
(which has just advanced two squares), Black rook H5, Black king H8.
Capturing the d-pawn en passant (E5×D6) opens the fifth rank and leaves the
White king in check from the rook. -/
def c1s : GameState :=
  { baseState with
    board := boardOf [((4, 0), 0), ((7, 7), 1), ((4, 4), 2), ((4, 3), 3), ((4, 7), 4)]
    pieces :=
      [basePiece Kind.king 1 (4, 0),
       { basePiece Kind.king 2 (7, 7) with moveIdx := 3 },
       { basePiece Kind.pawn 1 (4, 4) with moveIdx := 3 },
       { basePiece Kind.pawn 2 (4, 3) with moveIdx := 1, receiveEnPassant := true },
       { basePiece Kind.rook 2 (4, 7) with has2 := true, moveIdx := 2 }]
    moveCount := 8 }

/-- Board position for C2: Black pawn D4 with en-passant rights against the
White pawn on E4 (`perform_en_passant` primed, as `move_types` leaves it
after classifying D4×E3). -/
def c2s : GameState :=
  { baseState with
    board := boardOf [((3, 3), 0), ((3, 4), 1)]
    pieces :=
      [{ basePiece Kind.pawn 2 (3, 3) with moveIdx := 2, performEnPassant := true, enPassantIdx := some (3, 4) },
       { basePiece Kind.pawn 1 (3, 4) with moveIdx := 1, receiveEnPassant := true }]
    moveCount := 9 }

/-- The en-passant trial of C2 followed by its revert. -/
def c2run : Option GameState :=
  match movePiece c2s 0 (2, 4) codeOpponent false with
  | none => none
  | some (s2, mate) => redoMove s2 0 mate codeOpponent false true

/-- Board position for C3: White king E1 unmoved and never in check; the
kingside rook H1 (`'2' in name`) and the queenside rook A1 (`'1' in name`)
have both moved (`move_idx = 5`). -/
def c3s : GameState :=
  { baseState with
    board := boardOf [((0, 4), 0), ((0, 7), 1), ((0, 0), 2), ((7, 4), 3)]
    pieces :=
      [basePiece Kind.king 1 (0, 4),
       { basePiece Kind.rook 1 (0, 7) with has2 := true, moveIdx := 5 },
       { basePiece Kind.rook 1 (0, 0) with has1 := true, moveIdx := 5 },
       basePiece Kind.king 2 (7, 4)]
    moveCount := 20 }

/-- Board position for C4: White pawn E2 not yet moved, Black pawn blocking
E4; the two-square advance E2–E4 must be rejected. -/
def c4s : GameState :=
  { baseState with
    board := boardOf [((1, 4), 0), ((3, 4), 1)]
    pieces :=
      [basePiece Kind.pawn 1 (1, 4),
       { basePiece Kind.pawn 2 (3, 4) with moveIdx := 1 }]
    moveCount := 0 }

/-- Board position for C5: White pawn E4 just advanced two squares
(`receive_en_passant = true`); Black rook A8 about to issue a rejected
(diagonal) move request. -/
def c5s : GameState :=
  { baseState with
    board := boardOf [((3, 4), 0), ((7, 0), 1)]
    pieces :=
      [{ basePiece Kind.pawn 1 (3, 4) with moveIdx := 1, receiveEnPassant := true },
       { basePiece Kind.rook 2 (7, 0) with has1 := true, moveIdx := 2 }]
    moveCount := 1 }

/-- A lone White rook on A1 (witness state for the zero-vector and
field-error claims). -/
def c6w : GameState :=
  { baseState with
    board := boardOf [((0, 0), 0)]
    pieces := [{ basePiece Kind.rook 1 (0, 0) with has1 := true }] }

/-- Board position for C7: White king E1, Black king A8, Black rook E8
giving check along the open e-file. -/
def s7w : GameState :=
  { baseState with
    board := boardOf [((0, 4), 0), ((7, 0), 1), ((7, 4), 2)]
    pieces :=
      [basePiece Kind.king 1 (0, 4),
       { basePiece Kind.king 2 (7, 0) with moveIdx := 2 },
       { basePiece Kind.rook 2 (7, 4) with has1 := true, moveIdx := 1 }]
    moveCount := 6 }

/-- Observation of the C1 trial: the legality classification, the result of
the post-trial self-check test, the snapshot's content on the landing
square (the cell `redo_move` will try to resurrect from), and the
liveness of the en-passant victim after the trial. -/
def c1probe : Option (Nat × Bool × Option PieceId × Option Bool) := do
  let (s1, v, _) ← checkMove 1 c1s 2 (5, 3) 1 false
  let (s2, mate) ← movePiece s1 2 (5, 3) v s1.isRochade
  let (s3, chk) ← checkCheck 1 s2 1
  return (v, chk, boardGet mate (5, 3), (getPiece s3 3).map (fun p => p.isAlive))

/-! ## Predicates used by the theorems -/

/-- The piece attributes `check_check` must not change for it to count as
side-effect free on the game state (its scratch fields `possible_moves`,
`perform_en_passant`, `en_passant_idx` excluded). -/
def pieceFrame (p : Piece) :
    Kind × Nat × Bool × Bool × Bool × Option Pos × Pos × Nat × Bool :=
  (p.kind, p.color, p.has1, p.has2, p.isAlive, p.pos, p.lastField, p.moveIdx,
    p.receiveEnPassant)

/-- Embeds `s'` agrees with `s` on the board, on every piece's `pieceFrame`
attributes, and on all global flags. -/
def FrameEq (s s' : GameState) : Prop :=
  s'.board = s.board ∧ s'.pieces.map pieceFrame = s.pieces.map pieceFrame ∧
  s'.moveCount = s.moveCount ∧ s'.wasChecked = s.wasChecked ∧
  s'.isRochade = s.isRochade ∧ s'.isRochadeGui = s.isRochadeGui ∧
  s'.rochadeRook = s.rochadeRook ∧ s'.rochadeRookMoveTo = s.rochadeRookMoveTo ∧
  s'.promotePiece = s.promotePiece ∧ s'.isCheckmate = s.isCheckmate

/-- Every state a `check_check` run can return agrees with the input state
on the `FrameEq` attributes. -/
def FramePreserved (s : GameState) (r : Option (GameState × Bool)) : Prop :=
  ∀ s' b, r = some (s', b) → FrameEq s s'

/-- No piece's candidate list contains the zero vector.  This holds for a
fresh registry (`possible_moves = []`) and is preserved by every
`move_types` call, i.e. it holds in every reachable state. -/
def ZeroFree (s : GameState) : Prop :=
  ∀ q pq, getPiece s q = some pq → ((0 : Int), (0 : Int)) ∉ pq.possibleMoves

/-- Embeds `ZeroFree` holds for whatever state an operation returns. -/
def ZeroFreeO (r : Option GameState) : Prop :=
  ∀ out, r = some out → ZeroFree out

/-- The mover aside, nobody keeps en-passant eligibility in the state a
`move` request that passed request validation (`invalid_request`) returns,
irrespective of whether the move was committed, rejected or reverted. -/
def OthersCleared (r : Option (GameState × Option ReqError)) (pid : PieceId) :
    Prop :=
  ∀ s' q, r = some (s', none) → q ≠ pid →
    (getPiece s' q).all (fun p => !p.receiveEnPassant) = true

/-- The size of the piece registry. -/
def plen (s : GameState) : Nat := s.pieces.length

/-- Whatever state a sequence of registry operations produces, the
registry has not shrunk and every pre-existing index is still
populated. -/
def RegistryGrew (s : GameState) (r : Option GameState) : Prop :=
  ∀ s', r = some s' →
    plen s ≤ plen s' ∧ ∀ i, i < plen s → (getPiece s' i).isSome = true

/-!
# Theorems
-/

/-- Setting an index that holds a value overwrites exactly that index. -/
theorem listGetSetSelf {α : Type} (l : List α) (i : Nat) (a b : α)
    (h : l.get? i = some b) : (l.set i a).get? i = some a := by
  induction l generalizing i with
  | nil => simp at h
  | cons x xs ih =>
    cases i with
    | zero => simp
    | succ n => simpa using ih n (by simpa using h)

/-- Setting one index leaves the others unchanged. -/
theorem listGetSetNe {α : Type} (l : List α) (i j : Nat) (a : α)
    (h : i ≠ j) : (l.set i a).get? j = l.get? j := by
  induction l generalizing i j with
  | nil => simp
  | cons x xs ih =>
    cases i with
    | zero =>
      cases j with
      | zero => exact absurd rfl h
      | succ m => simp
    | succ n =>
      cases j with
      | zero => simp
      | succ m => simpa using ih n m (fun hh => h (by rw [hh]))

/-- Overwriting an index with the value it already holds is the identity. -/
theorem listSetSelfId {α : Type} (l : List α) (i : Nat) (a : α)
    (h : l.get? i = some a) : l.set i a = l := by
  induction l generalizing i with
  | nil => simp at h
  | cons x xs ih =>
    cases i with
    | zero => simp_all
    | succ n => simpa using ih n (by simpa using h)

/-- Embeds `setPiece` makes the written piece visible at its index. -/
theorem getPiece_setPiece_self (s : GameState) (pid : PieceId) (p x : Piece)
    (h : getPiece s pid = some p) : getPiece (setPiece s pid x) pid = some x :=
  listGetSetSelf s.pieces pid x p h

/-- Embeds `setPiece` does not affect other registry indices. -/
theorem getPiece_setPiece_ne (s : GameState) (pid q : PieceId) (x : Piece)
    (h : pid ≠ q) : getPiece (setPiece s pid x) q = getPiece s q :=
  listGetSetNe s.pieces pid q x h

/-- Pointwise description of `clearRecvAux`. -/
theorem clearRecvAux_get? (pid : PieceId) :
    ∀ (l : List Piece) (n i : Nat),
      (clearRecvAux pid n l).get? i =
        (l.get? i).map
          (fun p => if n + i = pid then p else { p with receiveEnPassant := false })
  | [], n, i => by simp [clearRecvAux]
  | p :: ps, n, 0 => by simp [clearRecvAux]
  | p :: ps, n, i + 1 => by
    have ih := clearRecvAux_get? pid ps (n + 1) i
    have e : n + (i + 1) = (n + 1) + i := by omega
    simp only [clearRecvAux, List.get?, e]
    exact ih

/-- C1: A committed move never leaves the mover's own king in check, and a
trial that would is fully reverted before control returns.  The second
half fails on the code: in the position `c1s`, the en-passant capture
E5×D6 is classified as a capture (`codeOpponent`), the post-trial
self-check test is positive (the rook on H5 now attacks the king on A5)
and the victim has been killed — but the pre-move board holds nothing on
the landing square D6, so `redo_move` calls `resurrect_piece(None)` and
the whole of `execute_move` ends in an `AttributeError` (modelled `none`)
instead of a revert. -/
theorem enPassant_selfCheck_trial_raises :
    c1probe = some (codeOpponent, true, none, some false) ∧
    executeMove 1 c1s 2 (5, 3) = none :=
  ⟨rfl, rfl⟩

/-- C2: Executing a trial via `move_piece` and reverting it via
`redo_move` restores the pre-trial state for every classification.  This
fails for the en-passant classification: in `c2s` the trial D4×E3 executes
(`isSome`), but the revert crashes on `resurrect_piece(None)` because the
snapshot's cell under the pawn's landing square is empty. -/
theorem enPassant_trial_revert_raises :
    (movePiece c2s 0 (2, 4) codeOpponent false).isSome = true ∧
    c2run = none :=
  ⟨rfl, rfl⟩

/-- C3: Castling is claimed to be offered only when the rook on the chosen
side has `move_idx == 0`.  In `c3s` both rooks have `move_idx = 5`, yet
the kingside vector `(0, 2)` is still offered (entered into the king's
move set, with the castling context recorded), because the misparenthesised
rook condition only applies the `move_idx == 0` test to the queenside
disjunct; the queenside vector `(0, -2)` is correctly not offered. -/
theorem kingside_rochade_ignores_rook_moveIdx :
    (getPiece c3s 1).map (fun p => (p.kind, p.moveIdx, p.has2)) =
      some (Kind.rook, 5, true) ∧
    (getPiece c3s 2).map (fun p => (p.kind, p.moveIdx, p.has1)) =
      some (Kind.rook, 5, true) ∧
    (moveTypes c3s 0 (0, 6) false).map (fun o =>
        ((getPiece o 0).map (fun p => p.possibleMoves), o.isRochade,
          o.rochadeRook, o.rochadeRookMoveTo)) =
      some (some (kingMoves ++ [(0, 2)]), true, some 1, some (0, 5)) ∧
    (moveTypes c3s 0 (0, 2) false).map (fun o =>
        ((getPiece o 0).map (fun p => p.possibleMoves), o.isRochade)) =
      some (some kingMoves, false) :=
  ⟨rfl, rfl, rfl, rfl⟩

/-- C4 counterexample: a two-square-advance request that is rejected is
claimed to leave `receive_en_passant` false.  In `c4s` the advance E2–E4
is blocked by the pawn on E4: the request is rejected (no error from
`invalid_request`, `move_count` stays 0, the board is unchanged), yet the
flag on the requesting pawn is true afterwards, because `move_types` sets
it before the request is validated. -/
theorem rejected_double_step_sets_flag :
    (getPiece c4s 0).map (fun p => p.receiveEnPassant) = some false ∧
    (moveReq 1 c4s 0 "E4").map (fun r =>
        ((getPiece r.1 0).map (fun p => p.receiveEnPassant),
          r.1.moveCount, r.2)) =
      some (some true, 0, none) ∧
    (moveReq 1 c4s 0 "E4").map (fun r => r.1.board) = some c4s.board :=
  ⟨rfl, by decide, by decide⟩

/-- C5 counterexample: en-passant eligibility is claimed to be cleared
only after committed moves and to last through the whole following
half-move.  In `c5s` the white pawn on E4 is eligible; Black then issues a
rejected request (rook A8 → B7, a diagonal rook move): nothing is
committed (`move_count` stays 1, the board is unchanged), yet the white
pawn's eligibility is gone, because `move` runs `reset_en_passant` even
after a rejected move. -/
theorem rejected_request_clears_window :
    (getPiece c5s 0).map (fun p => p.receiveEnPassant) = some true ∧
    (moveReq 1 c5s 1 "B7").map (fun r =>
        ((getPiece r.1 0).map (fun p => p.receiveEnPassant),
          r.1.moveCount, r.2)) =
      some (some false, 1, none) ∧
    (moveReq 1 c5s 1 "B7").map (fun r => r.1.board) = some c5s.board :=
  ⟨rfl, by decide, by decide⟩

/-- C4 (amended): `receive_en_passant` becomes true on a pawn as soon as a
non-simulated request whose vertical component has magnitude 2 reaches
`move_types` — before any validity check, hence also when the request is
subsequently rejected; it is only cleared again by `reset_en_passant`
during another piece's later request. -/
theorem double_step_request_sets_flag (s : GameState) (pid : PieceId)
    (p : Piece) (src dst : Pos) (h1 : getPiece s pid = some p)
    (h2 : p.kind = Kind.pawn) (h3 : p.pos = some src)
    (h4 : ((dst.1 : Int) - (src.1 : Int)).natAbs = 2) :
    (moveTypes s pid dst false).bind
      (fun out => (getPiece out pid).map (fun q => q.receiveEnPassant)) =
      some true := by
  simp only [moveTypes, h1, h3, h2, Option.some_bind]
  unfold pawnMoveTypes
  simp only [moveStep, h4]
  simp only [eq_self_iff_true, true_and, Bool.not_eq_true, not_false_eq_true,
    and_true, if_true, and_self, ite_true]
  repeat' split
  all_goals rw [getPiece_setPiece_self s pid p _ h1]
  all_goals simp

/-- Witness for the amended C4 statement at the concrete blocked
double-step of `c4s`. -/
theorem double_step_request_sets_flag_w :
    (moveTypes c4s 0 (3, 4) false).bind
      (fun out => (getPiece out 0).map (fun q => q.receiveEnPassant)) =
      some true :=
  double_step_request_sets_flag c4s 0 (basePiece Kind.pawn 1 (1, 4)) (1, 4)
    (3, 4) rfl rfl rfl (by decide)

/-- C5 (amended): after every `move` request that passes
`invalid_request` — committed, rejected or reverted alike —
`reset_en_passant` has cleared `receive_en_passant` on every piece other
than the mover. -/
theorem moveReq_clears_other_flags (fuel : Nat) (s : GameState)
    (pid : PieceId) (lab : String) :
    OthersCleared (moveReq fuel s pid lab) pid := by
  intro s' q h hq
  unfold moveReq at h
  rcases hg : getPiece s pid with _ | p
  · simp only [hg] at h
    exact Option.noConfusion h
  · simp only [hg] at h
    rcases hi : invalidRequest s p (labUpper lab) with _ | err
    · simp only [hi] at h
      rcases hl : label2index (labUpper lab) with _ | dst
      · simp only [hl] at h
        exact Option.noConfusion h
      · simp only [hl] at h
        rcases he : executeMove fuel s pid dst with _ | r
        · simp only [he] at h
          exact Option.noConfusion h
        · obtain ⟨s1, esc⟩ := r
          simp only [he, Option.some.injEq, Prod.mk.injEq] at h
          obtain ⟨h1', -⟩ := h
          subst h1'
          show (getPiece (resetEnPassant s1 pid) q).all
            (fun p => !p.receiveEnPassant) = true
          unfold getPiece resetEnPassant
          rw [clearRecvAux_get?]
          rcases s1.pieces.get? q with _ | pp
          · rfl
          · simp [hq]
    · simp only [hi, Option.some.injEq, Prod.mk.injEq] at h
      exact Option.noConfusion h.2

/-- Witness for the amended C5 statement at the concrete rejected request
of `c5s`. -/
theorem moveReq_clears_other_flags_w :
    OthersCleared (moveReq 1 c5s 1 "B7") 1 :=
  moveReq_clears_other_flags 1 c5s 1 "B7"

/-- A value looked up at the just-written index is the written value. -/
theorem listGetSetSelfInv {α : Type} (l : List α) (i : Nat) (a b : α)
    (h : (l.set i a).get? i = some b) : b = a := by
  induction l generalizing i with
  | nil => simp at h
  | cons x xs ih =>
    cases i with
    | zero => simp at h; exact h.symm
    | succ n => exact ih n (by simpa using h)

/-- Embeds `setPiece` with a zero-free candidate list preserves `ZeroFree`. -/
theorem setPiece_zeroFree (s : GameState) (pid : PieceId) (x : Piece)
    (hz : ZeroFree s) (hx : ((0 : Int), (0 : Int)) ∉ x.possibleMoves) :
    ZeroFree (setPiece s pid x) := by
  intro q pq hq
  rcases eq_or_ne pid q with rfl | hne
  · have := listGetSetSelfInv s.pieces pid x pq hq
    subst this
    exact hx
  · exact hz q pq (by rw [← getPiece_setPiece_ne s pid q x hne]; exact hq)

/-- The pawn's base move list never contains the zero vector. -/
theorem pawnBase_noZero (m c : Nat) :
    ((0 : Int), (0 : Int)) ∉ pawnBaseMoves m c := by
  unfold pawnBaseMoves
  split <;> split <;> decide

/-- A `(true, _)` result of `check_rochade` implies the requested vector
was one of the two castling vectors. -/
theorem checkRochade_true_mem (s : GameState) (color : Nat) (mv : Vec)
    (isTest : Bool) (rook : Option PieceId)
    (h : checkRochade s color mv isTest = (true, rook)) : mv ∈ kingRochade := by
  unfold checkRochade at h
  split at h
  · next hc => exact hc.1
  · cases h

/-- Embeds `move_types` never inserts the zero vector into a candidate list: the
fixed per-kind move sets avoid it, and the sliding pieces (Rook, Bishop,
Queen) only ever store a vector that passed `is_straight`/`is_diagonal`,
which the zero vector does not. -/
theorem moveTypes_zeroFree (s : GameState) (pid : PieceId) (dst : Pos)
    (isTest : Bool) (hz : ZeroFree s) :
    ZeroFreeO (moveTypes s pid dst isTest) := by
  intro out hout
  unfold moveTypes at hout
  rcases hg : getPiece s pid with _ | p
  · simp only [hg] at hout
    exact Option.noConfusion hout
  · simp only [hg] at hout
    rcases hp : p.pos with _ | src
    · simp only [hp] at hout
      exact Option.noConfusion hout
    · simp only [hp] at hout
      cases hk : p.kind <;> simp only [hk] at hout
      case pawn =>
        cases hout
        unfold pawnMoveTypes
        simp only [moveStep]
        repeat' split
        all_goals apply setPiece_zeroFree _ _ _ hz
        all_goals try simp
        all_goals exact pawnBase_noZero p.moveIdx p.color
      case rook =>
        split at hout <;> cases hout
        · next hs =>
          apply setPiece_zeroFree _ _ _ hz
          intro hmem
          rw [List.mem_singleton] at hmem
          rw [← hmem] at hs
          simp [isStraight] at hs
        · exact hz
      case knight =>
        cases hout
        apply setPiece_zeroFree _ _ _ hz
        exact (by decide : ((0 : Int), (0 : Int)) ∉ knightMoves)
      case bishop =>
        split at hout <;> cases hout
        · next hs =>
          apply setPiece_zeroFree _ _ _ hz
          intro hmem
          rw [List.mem_singleton] at hmem
          rw [← hmem] at hs
          simp [isDiagonal] at hs
        · exact hz
      case queen =>
        split at hout <;> cases hout
        · next hs =>
          apply setPiece_zeroFree _ _ _ hz
          intro hmem
          rw [List.mem_singleton] at hmem
          rw [← hmem] at hs
          simp [isDiagonal, isStraight] at hs
        · exact hz
      case king =>
        cases hout
        split
        · split
          · next rook heqr =>
            intro q pq hq
            refine setPiece_zeroFree s pid _ hz ?_ q pq hq
            intro hmem
            rcases List.mem_append.mp hmem with hmem | hmem
            · exact (by decide : ((0 : Int), (0 : Int)) ∉ kingMoves) hmem
            · rw [List.mem_singleton] at hmem
              have hkr := checkRochade_true_mem s p.color _ isTest rook heqr
              rw [← hmem] at hkr
              exact (by decide : ((0 : Int), (0 : Int)) ∉ kingRochade) hkr
          · apply setPiece_zeroFree _ _ _ hz
            exact (by decide : ((0 : Int), (0 : Int)) ∉ kingMoves)
        · apply setPiece_zeroFree _ _ _ hz
          exact (by decide : ((0 : Int), (0 : Int)) ∉ kingMoves)

/-- Embeds `setRochade` does not touch the registry. -/
theorem getPiece_setRochade (s : GameState) (src : Pos) (mv : Vec)
    (rook : Option PieceId) (q : PieceId) :
    getPiece (setRochade s src mv rook) q = getPiece s q := rfl

/-- Embeds `move_types` on an alive piece succeeds and keeps the piece's position
and kind (pointwise form). -/
theorem moveTypes_pid (s : GameState) (pid : PieceId) (p : Piece)
    (src dst : Pos) (isTest : Bool) (h1 : getPiece s pid = some p)
    (h3 : p.pos = some src) :
    (moveTypes s pid dst isTest).bind
      (fun out => (getPiece out pid).map (fun q => (q.pos, q.kind))) =
      some (some src, p.kind) := by
  unfold moveTypes
  simp only [h1, h3]
  cases hk : p.kind <;> simp only [hk, Option.some_bind]
  case pawn =>
    unfold pawnMoveTypes
    simp only [moveStep]
    repeat' split
    all_goals rw [getPiece_setPiece_self s pid p _ h1]
    all_goals simp [h3, hk]
  case rook =>
    split
    · rw [getPiece_setPiece_self s pid p _ h1]; simp [h3, hk]
    · rw [h1]; simp [h3, hk]
  case knight =>
    rw [getPiece_setPiece_self s pid p _ h1]; simp [h3, hk]
  case bishop =>
    split
    · rw [getPiece_setPiece_self s pid p _ h1]; simp [h3, hk]
    · rw [h1]; simp [h3, hk]
  case queen =>
    split
    · rw [getPiece_setPiece_self s pid p _ h1]; simp [h3, hk]
    · rw [h1]; simp [h3, hk]
  case king =>
    split
    · split
      · rw [getPiece_setRochade, getPiece_setPiece_self s pid p _ h1]
        simp [h3, hk]
      · rw [getPiece_setPiece_self s pid p _ h1]; simp [h3, hk]
    · rw [getPiece_setPiece_self s pid p _ h1]; simp [h3, hk]

/-- Existential form of `moveTypes_pid`. -/
theorem moveTypes_keeps (s : GameState) (pid : PieceId) (p : Piece)
    (src dst : Pos) (isTest : Bool) (h1 : getPiece s pid = some p)
    (h3 : p.pos = some src) :
    ∃ out p1, moveTypes s pid dst isTest = some out ∧
      getPiece out pid = some p1 ∧ p1.pos = some src ∧ p1.kind = p.kind := by
  have h := moveTypes_pid s pid p src dst isTest h1 h3
  rcases Option.bind_eq_some.mp h with ⟨out, hout, hmap⟩
  rcases Option.map_eq_some'.mp hmap with ⟨p1, hp1, hval⟩
  refine ⟨out, p1, hout, hp1, ?_, ?_⟩
  · exact congrArg Prod.fst hval
  · exact congrArg Prod.snd hval

/-- In any `check_move` (at any fuel), a request whose destination equals
the source is rejected at the membership test with `MoveError`, provided no
candidate list contains the zero vector. -/
theorem checkMoveF_zero
    (ctc : GameState → PieceId → List Pos → Option (GameState × Nat × MoveMsg))
    (s : GameState) (pid : PieceId) (p : Piece) (src : Pos) (color : Nat)
    (isTest : Bool) (h1 : getPiece s pid = some p) (h3 : p.pos = some src)
    (hz : ZeroFree s) :
    (checkMoveF ctc s pid src color isTest).map (fun r => (r.2.1, r.2.2)) =
      some (codeInvalid, MoveMsg.moveError) := by
  obtain ⟨out, p1, hout, hp1, hpos, hkind⟩ :=
    moveTypes_keeps s pid p src src isTest h1 h3
  have hmem : moveStep src src ∉ p1.possibleMoves := by
    have hzo := moveTypes_zeroFree s pid src isTest hz out hout pid p1 hp1
    simpa [moveStep] using hzo
  unfold checkMoveF
  simp only [hout, hp1, hpos]
  rw [if_pos hmem]
  rfl

/-- C6: A move request whose vector is zero (destination = source) is
rejected as `Invalid` with a `MoveError` for every piece kind, in every
state whose candidate lists are free of the zero vector — and `move_types`
(the only writer of candidate lists) preserves that freedom, so it holds
in every reachable state, stale candidate lists of Rook/Bishop/Queen
included. -/
theorem zero_vector_rejected (fuel : Nat) (s : GameState) (pid : PieceId)
    (p : Piece) (src : Pos) (color : Nat) (isTest : Bool)
    (h1 : getPiece s pid = some p) (h3 : p.pos = some src)
    (hz : ZeroFree s) :
    (checkMove fuel s pid src color isTest).map (fun r => (r.2.1, r.2.2)) =
      some (codeInvalid, MoveMsg.moveError) ∧
    ∀ dst t, ZeroFreeO (moveTypes s pid dst t) := by
  constructor
  · cases fuel with
    | zero =>
      exact checkMoveF_zero (fun _ _ _ => none) s pid p src color isTest h1 h3 hz
    | succ n =>
      exact checkMoveF_zero
        (fun s' pid' inter => checkThroughCheckF (checkMoveFuel n) pid' s' inter)
        s pid p src color isTest h1 h3 hz
  · intro dst t
    exact moveTypes_zeroFree s pid dst t hz

/-- Witness for C6 at the concrete state `c6w` (a rook asked to move to
its own square). -/
theorem zero_vector_rejected_w :
    (checkMove 1 c6w 0 (0, 0) 1 false).map (fun r => (r.2.1, r.2.2)) =
      some (codeInvalid, MoveMsg.moveError) ∧
    ZeroFreeO (moveTypes c6w 0 (5, 5) false) := by
  have hz : ZeroFree c6w := by
    intro q pq hq
    match q, hq with
    | 0, hq => cases hq; decide
  refine ⟨?_, ?_⟩
  · exact (zero_vector_rejected 1 c6w 0 _ (0, 0) 1 false rfl rfl hz).1
  · exact (zero_vector_rejected 1 c6w 0 _ (0, 0) 1 false rfl rfl hz).2 (5, 5) false

/-- Mapping after an update that the map cannot see is mapping the
original. -/
theorem listMapSetSame {α β : Type} (g : α → β) (l : List α) (i : Nat)
    (x p : α) (h : l.get? i = some p) (hg : g x = g p) :
    (l.set i x).map g = l.map g := by
  induction l generalizing i with
  | nil => simp at h
  | cons a as ih =>
    cases i with
    | zero =>
      simp only [List.get?] at h
      cases h
      simp [hg]
    | succ n =>
      simp only [List.get?] at h
      simpa using ih n h

/-- Embeds `FrameEq` is reflexive. -/
theorem frameEq_refl (s : GameState) : FrameEq s s :=
  ⟨rfl, rfl, rfl, rfl, rfl, rfl, rfl, rfl, rfl, rfl⟩

/-- Embeds `FrameEq` composes. -/
theorem frameEq_trans {s t u : GameState} (h1 : FrameEq s t)
    (h2 : FrameEq t u) : FrameEq s u := by
  obtain ⟨a1, b1, c1, d1, e1, f1, g1, hh1, i1, j1⟩ := h1
  obtain ⟨a2, b2, c2, d2, e2, f2, g2, hh2, i2, j2⟩ := h2
  exact ⟨a2.trans a1, b2.trans b1, c2.trans c1, d2.trans d1, e2.trans e1,
    f2.trans f1, g2.trans g1, hh2.trans hh1, i2.trans i1, j2.trans j1⟩

/-- Replacing a piece by a `pieceFrame`-equal one is a frame no-op. -/
theorem frameEq_setPiece (s : GameState) (pid : PieceId) (p x : Piece)
    (h : getPiece s pid = some p) (hx : pieceFrame x = pieceFrame p) :
    FrameEq s (setPiece s pid x) :=
  ⟨rfl, listMapSetSame pieceFrame s.pieces pid x p h hx, rfl, rfl, rfl, rfl,
    rfl, rfl, rfl, rfl⟩

/-- In simulation mode `check_rochade` always declines. -/
theorem checkRochade_test (s : GameState) (color : Nat) (mv : Vec) :
    checkRochade s color mv true = (false, none) := by
  unfold checkRochade
  rw [if_neg (fun hc => hc.2.2 rfl)]

/-- A simulated (`is_test=True`) `move_types` call only rewrites the
moving piece's `possible_moves`, `perform_en_passant` and
`en_passant_idx`: board, globals and all `pieceFrame` attributes are
untouched. -/
theorem moveTypes_frame (s : GameState) (pid : PieceId) (dst : Pos) :
    ∀ out, moveTypes s pid dst true = some out → FrameEq s out := by
  intro out hout
  unfold moveTypes at hout
  rcases hg : getPiece s pid with _ | p
  · simp only [hg] at hout; exact Option.noConfusion hout
  · simp only [hg] at hout
    rcases hp : p.pos with _ | src
    · simp only [hp] at hout; exact Option.noConfusion hout
    · simp only [hp] at hout
      cases hk : p.kind <;> simp only [hk] at hout
      case pawn =>
        cases hout
        unfold pawnMoveTypes
        simp only [moveStep, eq_self_iff_true, not_true, and_false, if_false]
        repeat' split
        all_goals exact frameEq_setPiece s pid p _ hg (by simp [pieceFrame, hk, hp])
      case rook =>
        split at hout <;> cases hout
        · exact frameEq_setPiece s pid p _ hg (by simp [pieceFrame, hk, hp])
        · exact frameEq_refl s
      case knight =>
        cases hout
        exact frameEq_setPiece s pid p _ hg (by simp [pieceFrame, hk, hp])
      case bishop =>
        split at hout <;> cases hout
        · exact frameEq_setPiece s pid p _ hg (by simp [pieceFrame, hk, hp])
        · exact frameEq_refl s
      case queen =>
        split at hout <;> cases hout
        · exact frameEq_setPiece s pid p _ hg (by simp [pieceFrame, hk, hp])
        · exact frameEq_refl s
      case king =>
        simp only [checkRochade_test] at hout
        cases hout
        split
        · exact frameEq_setPiece s pid p _ hg (by simp [pieceFrame, hk, hp])
        · exact frameEq_setPiece s pid p _ hg (by simp [pieceFrame, hk, hp])

/-- A simulated `check_move` with no castling in progress returns a
`FrameEq` state, for every castling-path checker. -/
theorem checkMoveF_frame
    (ctc : GameState → PieceId → List Pos → Option (GameState × Nat × MoveMsg))
    (s : GameState) (pid : PieceId) (dst : Pos) (color : Nat)
    (hroch : s.isRochade = false) :
    ∀ s' c m, checkMoveF ctc s pid dst color true = some (s', c, m) →
      FrameEq s s' := by
  intro s' c m h
  unfold checkMoveF at h
  rcases hmt : moveTypes s pid dst true with _ | s1
  · simp only [hmt] at h; exact Option.noConfusion h
  · simp only [hmt] at h
    have hf1 : FrameEq s s1 := moveTypes_frame s pid dst s1 hmt
    have hroch1 : s1.isRochade = false := by rw [hf1.2.2.2.2.1, hroch]
    rcases hg1 : getPiece s1 pid with _ | p1
    · simp only [hg1] at h; exact Option.noConfusion h
    · simp only [hg1] at h
      rcases hp1 : p1.pos with _ | src1
      · simp only [hp1] at h; exact Option.noConfusion h
      · simp only [hp1] at h
        split at h
        · cases h; exact hf1
        · rcases hl : (intermediateSteps p1.kind src1 dst).getLast? with _ | lastStep
          · simp only [hl] at h; exact Option.noConfusion h
          · simp only [hl] at h
            split at h
            · cases h; exact hf1
            · simp only [hroch1, Bool.false_eq_true, if_false] at h
              split at h
              · rcases hg2 : getPiece s1 pid with _ | p2
                · simp only [hg2] at h; exact Option.noConfusion h
                · simp only [hg2] at h
                  rcases he : (if p2.performEnPassant = true then p2.enPassantIdx
                      else some lastStep) with _ | ei
                  · simp only [he] at h; exact Option.noConfusion h
                  · simp only [he] at h
                    rcases hb : boardGet s1.board ei with _ | eid
                    · simp only [hb] at h; exact Option.noConfusion h
                    · simp only [hb] at h
                      cases h; exact hf1
              · cases h; exact hf1

/-- The attacker loop of `check_check` preserves the frame when every
`check_move` it delegates to does. -/
theorem ccLoopF_frame
    (cm : GameState → PieceId → Pos → Nat → Bool → Option (GameState × Nat × MoveMsg))
    (hcm : ∀ s pid dst color s' c m, s.isRochade = false →
      cm s pid dst color true = some (s', c, m) → FrameEq s s')
    (moveTo : Pos) (color : Nat) :
    ∀ (l : List PieceId) (s : GameState), s.isRochade = false →
      ∀ s' b, ccLoopF cm moveTo color s l = some (s', b) → FrameEq s s'
  | [], s, _, s', b, h => by
    simp only [ccLoopF, Option.some.injEq, Prod.mk.injEq] at h
    rw [← h.1]
    exact frameEq_refl s
  | q :: rest, s, hroch, s', b, h => by
    simp only [ccLoopF] at h
    rcases hgq : getPiece s q with _ | qp
    · simp only [hgq] at h; exact Option.noConfusion h
    · simp only [hgq] at h
      split at h
      · rcases hc : cm s q moveTo qp.color true with _ | r3
        · simp only [hc] at h; exact Option.noConfusion h
        · obtain ⟨s2, c2, m2⟩ := r3
          simp only [hc] at h
          have hf : FrameEq s s2 := hcm s q moveTo qp.color s2 c2 m2 hroch hc
          have hroch2 : s2.isRochade = false := by rw [hf.2.2.2.2.1, hroch]
          split at h
          · cases h; exact hf
          · exact frameEq_trans hf
              (ccLoopF_frame cm hcm moveTo color rest s2 hroch2 s' b h)
      · exact ccLoopF_frame cm hcm moveTo color rest s hroch s' b h

/-- Embeds `check_check` built over a frame-preserving `check_move` preserves the
frame. -/
theorem checkCheckF_frame
    (cm : GameState → PieceId → Pos → Nat → Bool → Option (GameState × Nat × MoveMsg))
    (hcm : ∀ s pid dst color s' c m, s.isRochade = false →
      cm s pid dst color true = some (s', c, m) → FrameEq s s')
    (s : GameState) (color : Nat) (hroch : s.isRochade = false) :
    ∀ s' b, checkCheckF cm s color = some (s', b) → FrameEq s s' := by
  intro s' b h
  unfold checkCheckF at h
  split at h
  · exact Option.noConfusion h
  · split at h
    · exact Option.noConfusion h
    · split at h
      · exact Option.noConfusion h
      · exact ccLoopF_frame cm hcm _ color (List.range s.pieces.length) s hroch s' b h

/-- Every fuel level of `check_move` is frame-preserving in simulation
mode without active castling. -/
theorem checkMoveFuel_frame (fuel : Nat) :
    ∀ s pid dst color s' c m, s.isRochade = false →
      checkMoveFuel fuel s pid dst color true = some (s', c, m) →
      FrameEq s s' := by
  cases fuel with
  | zero =>
    intro s pid dst color s' c m hroch h
    exact checkMoveF_frame _ s pid dst color hroch s' c m h
  | succ n =>
    intro s pid dst color s' c m hroch h
    exact checkMoveF_frame _ s pid dst color hroch s' c m h

/-- C7 (amended): with no castling in progress, `check_check` returns a
boolean and leaves the board grid, every piece's position, liveness,
`receive_en_passant`, `move_idx` and identity, and all global flags
unchanged; it does, however, overwrite the scratch fields
`possible_moves`, `perform_en_passant` and `en_passant_idx` of the pieces
it examines, so it is not fully side-effect free. -/
theorem checkCheck_frame (fuel : Nat) (s : GameState) (color : Nat)
    (hroch : s.isRochade = false) :
    FramePreserved s (checkCheck fuel s color) := by
  intro s' b h
  exact checkCheckF_frame (checkMoveFuel fuel) (checkMoveFuel_frame fuel)
    s color hroch s' b h

/-- Witness for the amended C7 statement at the concrete check position
`s7w`. -/
theorem checkCheck_frame_w : FramePreserved s7w (checkCheck 1 s7w 1) :=
  checkCheck_frame 1 s7w 1 rfl

/-- C7 counterexample: `check_check` is claimed to leave every piece's
`possible_moves` unchanged.  In `s7w` it returns true (the rook on E8
checks the king on E1) but rewrites the rook's candidate list from `[]` to
`[(-7, 0)]` on the way. -/
theorem checkCheck_mutates_possibleMoves :
    (getPiece s7w 2).map (fun p => p.possibleMoves) = some [] ∧
    (checkCheck 1 s7w 1).map (fun r =>
        (r.2, (getPiece r.1 2).map (fun p => p.possibleMoves))) =
      some (true, some [(-7, 0)]) :=
  ⟨rfl, rfl⟩

/-- Embeds `setPiece` keeps the registry size. -/
theorem plen_setPiece (s : GameState) (pid : PieceId) (x : Piece) :
    plen (setPiece s pid x) = plen s := by
  simp [plen, setPiece]

/-- Embeds `updPiece` keeps the registry size. -/
theorem plen_updPiece (s : GameState) (pid : PieceId) (f : Piece → Piece) :
    plen (updPiece s pid f) = plen s := by
  unfold updPiece
  split
  · exact plen_setPiece s pid _
  · rfl

/-- Embeds `kill_piece` keeps the registry size: it only flips flags and board
cells, it never removes the entry. -/
theorem plen_killPiece (s : GameState) (e : PieceId) (r : Bool) :
    plen (killPiece s e r) = plen s := by
  unfold killPiece
  split
  · rfl
  · rw [plen_updPiece]
    split
    · rfl
    · split <;> rfl

/-- Embeds `resurrect_piece` keeps the registry size. -/
theorem plen_resurrect (s : GameState) (sp e : PieceId) :
    plen (resurrectPiece s sp e) = plen s := by
  unfold resurrectPiece
  split
  · rfl
  · exact plen_updPiece s e _

/-- Embeds `move_types` keeps the registry size. -/
theorem plen_moveTypes (s : GameState) (pid : PieceId) (dst : Pos)
    (isTest : Bool) (out : GameState)
    (h : moveTypes s pid dst isTest = some out) : plen out = plen s := by
  unfold moveTypes at h
  rcases hg : getPiece s pid with _ | p
  · simp only [hg] at h; exact Option.noConfusion h
  · simp only [hg] at h
    rcases hp : p.pos with _ | src
    · simp only [hp] at h; exact Option.noConfusion h
    · simp only [hp] at h
      cases hk : p.kind <;> simp only [hk] at h
      case pawn =>
        cases h
        unfold pawnMoveTypes
        simp only [moveStep]
        repeat' split
        all_goals exact plen_setPiece s pid _
      case rook =>
        split at h <;> cases h
        · exact plen_setPiece s pid _
        · rfl
      case knight =>
        cases h
        exact plen_setPiece s pid _
      case bishop =>
        split at h <;> cases h
        · exact plen_setPiece s pid _
        · rfl
      case queen =>
        split at h <;> cases h
        · exact plen_setPiece s pid _
        · rfl
      case king =>
        cases h
        split
        · split
          · exact plen_setPiece s pid _
          · exact plen_setPiece s pid _
        · exact plen_setPiece s pid _

/-- Registry size is untouched by a board write. -/
theorem plen_withBoard (x : GameState) (b : Board) :
    plen { x with board := b } = plen x := rfl

/-- Registry size is untouched by the promotion marker. -/
theorem plen_withPromote (x : GameState) (v : Option PieceId) :
    plen { x with promotePiece := v } = plen x := rfl

/-- Registry size is untouched by clearing the castling flags. -/
theorem plen_withRochFlags (x : GameState) (a b : Bool) :
    plen { x with isRochade := a, isRochadeGui := b } = plen x := rfl

/-- The core of `move_piece` keeps the registry size. -/
theorem plen_movePieceCore (s : GameState) (pid : PieceId) (dst : Pos)
    (v : Nat) (s' : GameState) (mate : Board)
    (h : movePieceCore s pid dst v = some (s', mate)) : plen s' = plen s := by
  unfold movePieceCore at h
  rcases hg : getPiece s pid with _ | p
  · simp only [hg] at h; exact Option.noConfusion h
  · simp only [hg] at h
    rcases hp : p.pos with _ | src
    · simp only [hp] at h; exact Option.noConfusion h
    · simp only [hp] at h
      generalize hS2 : updPiece { s with board := boardSet s.board src none } pid
          (fun q => { q with lastField := src, pos := some dst }) = s2 at h
      have hlen2 : plen s2 = plen s := by
        rw [← hS2, plen_updPiece, plen_withBoard]
      by_cases hv : v = codeOpponent
      · rw [if_pos hv] at h
        rcases hg2 : getPiece s2 pid with _ | p1
        · simp only [hg2] at h; exact Option.noConfusion h
        · simp only [hg2] at h
          cases hpf : p1.performEnPassant <;> rw [hpf] at h
          · rw [if_neg (by decide : ¬(false = true))] at h
            rcases hb : boardGet s2.board dst with _ | vid
            · simp only [hb] at h; exact Option.noConfusion h
            · simp only [hb] at h
              cases h
              rw [plen_withBoard, plen_killPiece]
              exact hlen2
          · rw [if_pos rfl] at h
            rcases hep : p1.enPassantIdx with _ | ep
            · simp only [hep] at h; exact Option.noConfusion h
            · simp only [hep] at h
              rcases hb : boardGet s2.board ep with _ | vid
              · simp only [hb] at h; exact Option.noConfusion h
              · simp only [hb] at h
                cases h
                rw [plen_withBoard, plen_killPiece]
                exact hlen2
      · rw [if_neg hv] at h
        cases h
        rw [plen_withBoard]
        exact hlen2

/-- Embeds `move_piece` without the rochade tail keeps the registry size. -/
theorem plen_movePieceNoR (s : GameState) (pid : PieceId) (dst : Pos)
    (v : Nat) (s' : GameState) (mate : Board)
    (h : movePieceNoR s pid dst v = some (s', mate)) : plen s' = plen s := by
  unfold movePieceNoR at h
  rcases hc : movePieceCore s pid dst v with _ | r
  · simp only [hc] at h; exact Option.noConfusion h
  · obtain ⟨s1, m1⟩ := r
    simp only [hc] at h
    cases h
    rw [plen_withPromote]
    exact plen_movePieceCore s pid dst v s1 _ hc

/-- Embeds `move_piece` keeps the registry size. -/
theorem plen_movePiece (s : GameState) (pid : PieceId) (dst : Pos) (v : Nat)
    (dr : Bool) (s' : GameState) (mate : Board)
    (h : movePiece s pid dst v dr = some (s', mate)) : plen s' = plen s := by
  unfold movePiece at h
  rcases hc : movePieceCore s pid dst v with _ | r
  · simp only [hc] at h; exact Option.noConfusion h
  · obtain ⟨s1, m1⟩ := r
    simp only [hc] at h
    have hbase := plen_movePieceCore s pid dst v s1 _ hc
    cases dr
    · rw [if_neg (by decide : ¬(false = true))] at h
      cases h
      rw [plen_withPromote]
      exact hbase
    · rw [if_pos rfl] at h
      rcases hr : s1.rochadeRook with _ | rk
      · simp only [hr] at h; exact Option.noConfusion h
      · simp only [hr] at h
        rcases hto : s1.rochadeRookMoveTo with _ | rto
        · simp only [hto] at h; exact Option.noConfusion h
        · simp only [hto] at h
          rcases hm2 : movePieceNoR s1 rk rto codeEmpty with _ | r2
          · simp only [hm2] at h; exact Option.noConfusion h
          · obtain ⟨s2, m2⟩ := r2
            simp only [hm2] at h
            cases h
            rw [plen_withPromote]
            exact (plen_movePieceNoR s1 rk rto codeEmpty s2 _ hm2).trans hbase

/-- One `redo_move` loop iteration keeps the registry size. -/
theorem plen_redoStep (mate : Board) (s : GameState) (idx : Pos) :
    plen (redoStep mate s idx) = plen s := by
  unfold redoStep
  split
  · rw [plen_updPiece, plen_withBoard]
  · rw [plen_withBoard]

/-- The `redo_move` loop keeps the registry size. -/
theorem plen_redoLoopAux (mate : Board) :
    ∀ (l : List Pos) (s : GameState), plen (redoLoopAux mate l s) = plen s
  | [], _ => rfl
  | idx :: rest, s => by
    simp only [redoLoopAux]
    rw [plen_redoLoopAux mate rest, plen_redoStep]

/-- Embeds `redo_move` keeps the registry size. -/
theorem plen_redoMove (s : GameState) (pid : PieceId) (mate : Board)
    (v : Nat) (t rr : Bool) (s' : GameState)
    (h : redoMove s pid mate v t rr = some s') : plen s' = plen s := by
  have hfin : ∀ x : GameState,
      plen (redoLoop mate (updPiece x pid
        (fun q => { q with pos := some q.lastField }))) = plen x := by
    intro x
    unfold redoLoop
    rw [plen_redoLoopAux, plen_updPiece]
  unfold redoMove at h
  rcases hg : getPiece s pid with _ | p
  · simp only [hg] at h; exact Option.noConfusion h
  · simp only [hg] at h
    by_cases hv : v = codeOpponent
    · rw [if_pos hv] at h
      rcases hp : p.pos with _ | cur
      · simp only [hp] at h; exact Option.noConfusion h
      · simp only [hp] at h
        rcases hb : boardGet mate cur with _ | eid
        · simp only [hb] at h; exact Option.noConfusion h
        · simp only [hb] at h
          cases h
          split
          · rw [plen_withRochFlags, hfin, plen_resurrect]
          · rw [hfin, plen_resurrect]
    · rw [if_neg hv] at h
      cases h
      split
      · rw [plen_withRochFlags, hfin]
      · rw [hfin]

/-- Characterisation of the row-major index enumeration. -/
theorem allIdx_mem (p : Pos) : p ∈ allIdx ↔ p.1 < 8 ∧ p.2 < 8 := by
  obtain ⟨i, j⟩ := p
  unfold allIdx
  simp only [List.mem_flatMap, List.mem_map, List.mem_range, Prod.mk.injEq]
  constructor
  · rintro ⟨a, ha, b, hb, rfl, rfl⟩
    exact ⟨ha, hb⟩
  · rintro ⟨h1, h2⟩
    exact ⟨i, h1, j, h2, rfl, rfl⟩

/-- Every generated field name is well formed. -/
theorem fieldName_wf : ∀ i, i < 8 → ∀ j, j < 8 →
    wellFormedLabel (fieldName i j) = true := by decide

/-- A successful lookup returns the matching in-range index. -/
theorem label2index_some_wf (lab : String) (p : Pos)
    (h : label2index lab = some p) :
    fieldName p.1 p.2 = lab ∧ p.1 < 8 ∧ p.2 < 8 := by
  have hpred := List.find?_some h
  have hmem := List.mem_of_find?_eq_some h
  rw [allIdx_mem] at hmem
  exact ⟨eq_of_beq hpred, hmem⟩

/-- A well-formed label is found by the lookup. -/
theorem wf_label2index (lab : String) (h : wellFormedLabel lab = true) :
    (label2index lab).isSome = true := by
  obtain ⟨data⟩ := lab
  match data, h with
  | [c, r], h =>
    simp only [wellFormedLabel, Bool.and_eq_true] at h
    obtain ⟨hc, hr⟩ := h
    have hcm : c ∈ columnChars := by simpa using hc
    have hrm : r ∈ rowChars := by simpa using hr
    fin_cases hcm <;> fin_cases hrm <;> decide

/-- C8: `label2index` succeeds exactly on the well-formed labels
(file `A`–`H` then rank `1`–`8`), and a `move` request whose uppercased
destination label is malformed is rejected with `FieldError` (the
last-assigned, hence reported, request error) and leaves the state
untouched. -/
theorem label2index_wf_and_fieldError :
    (∀ lab, (label2index lab).isSome = wellFormedLabel lab) ∧
    (∀ fuel s pid p lab, getPiece s pid = some p →
      wellFormedLabel (labUpper lab) = false →
      moveReq fuel s pid lab = some (s, some ReqError.fieldError)) := by
  have hA : ∀ lab, (label2index lab).isSome = wellFormedLabel lab := by
    intro lab
    cases hwf : wellFormedLabel lab
    · cases hx : (label2index lab) with
      | none => rfl
      | some p =>
        have := (label2index_some_wf lab p hx).1
        have hw := fieldName_wf p.1 (label2index_some_wf lab p hx).2.1
          p.2 (label2index_some_wf lab p hx).2.2
        rw [this] at hw
        rw [hw] at hwf
        cases hwf
    · exact wf_label2index lab hwf
  refine ⟨hA, ?_⟩
  intro fuel s pid p lab h1 hwf
  have hnone : label2index (labUpper lab) = none := by
    have hs := hA (labUpper lab)
    rw [hwf] at hs
    cases hx : label2index (labUpper lab) with
    | none => rfl
    | some q => rw [hx] at hs; cases hs
  simp only [moveReq, h1]
  have hinv : invalidRequest s p (labUpper lab) = some ReqError.fieldError := by
    unfold invalidRequest
    simp [hnone]
  rw [hinv]

/-- Witness for C8: the malformed label `"Z9"` is refused by the codec and
a request to it is rejected with `FieldError` without changing the
state. -/
theorem label2index_wf_and_fieldError_w :
    (label2index "Z9").isSome = wellFormedLabel "Z9" ∧
    moveReq 1 c6w 0 "Z9" = some (c6w, some ReqError.fieldError) :=
  ⟨label2index_wf_and_fieldError.1 "Z9",
   label2index_wf_and_fieldError.2 1 c6w 0
     { basePiece Kind.rook 1 (0, 0) with has1 := true } "Z9" rfl (by decide)⟩

/-- C9: the codec round-trips: decoding a label and re-encoding gives the
label back, and encoding a valid index pair and decoding gives the pair
back. -/
theorem label_index_roundtrip :
    (∀ lab p, label2index lab = some p → index2label p = lab) ∧
    (∀ i, i < 8 → ∀ j, j < 8 →
      label2index (index2label (i, j)) = some ((i, j) : Pos)) := by
  constructor
  · intro lab p h
    exact (label2index_some_wf lab p h).1
  · decide

/-- Witness for C9 at the label `"E4"` and the index `(3, 4)`. -/
theorem label_index_roundtrip_w :
    index2label (3, 4) = "E4" ∧
    label2index (index2label (3, 4)) = some ((3, 4) : Pos) :=
  ⟨label_index_roundtrip.1 "E4" (3, 4) (by decide),
   label_index_roundtrip.2 3 (by decide) 4 (by decide)⟩

/-- Registry size is untouched by setting the checkmate flag. -/
theorem plen_withCheckmate (x : GameState) (v : Bool) :
    plen { x with isCheckmate := v } = plen x := rfl

/-- Registry size is untouched by the `was_checked` flags. -/
theorem plen_withWasChecked (x : GameState) (v : Bool × Bool) :
    plen { x with wasChecked := v } = plen x := rfl

/-- Embeds `__init__` grows the registry by exactly one entry. -/
theorem plen_register (s : GameState) (k : Kind) (c : Nat) (h1 h2 : Bool)
    (sp : Pos) : plen (registerPiece s k c h1 h2 sp) = plen s + 1 := by
  simp [plen, registerPiece]

/-- Embeds `check_move` keeps the registry size whenever its castling-path
checker does. -/
theorem plen_checkMoveF
    (ctc : GameState → PieceId → List Pos → Option (GameState × Nat × MoveMsg))
    (hctc : ∀ s pid inter r, ctc s pid inter = some r → plen r.1 = plen s)
    (s : GameState) (pid : PieceId) (dst : Pos) (color : Nat) (isTest : Bool)
    (r : GameState × Nat × MoveMsg)
    (h : checkMoveF ctc s pid dst color isTest = some r) : plen r.1 = plen s := by
  unfold checkMoveF at h
  rcases hmt : moveTypes s pid dst isTest with _ | s1
  · simp only [hmt] at h; exact Option.noConfusion h
  · simp only [hmt] at h
    have h1 : plen s1 = plen s := plen_moveTypes s pid dst isTest s1 hmt
    rcases hg1 : getPiece s1 pid with _ | p1
    · simp only [hg1] at h; exact Option.noConfusion h
    · simp only [hg1] at h
      rcases hp1 : p1.pos with _ | src1
      · simp only [hp1] at h; exact Option.noConfusion h
      · simp only [hp1] at h
        by_cases hmem : moveStep src1 dst ∉ p1.possibleMoves
        · rw [if_pos hmem] at h
          cases h
          exact h1
        · rw [if_neg hmem] at h
          rcases hl : (intermediateSteps p1.kind src1 dst).getLast? with _ | lastStep
          · simp only [hl] at h; exact Option.noConfusion h
          · simp only [hl] at h
            rcases hany : ((intermediateSteps p1.kind src1 dst).dropLast.any
                fun st => !(checkFieldCode s1 pid st color == codeEmpty)) with _ | _ <;>
              rw [hany] at h
            · rw [if_neg (by decide : ¬(false = true))] at h
              rcases hir : s1.isRochade with _ | _
              · simp only [hir, Bool.false_eq_true, if_false] at h
                by_cases hend : checkFieldCode s1 pid lastStep color = codeOpponent
                · rw [if_pos hend] at h
                  simp only [hg1] at h
                  rcases he : (if p1.performEnPassant = true then p1.enPassantIdx
                      else some lastStep) with _ | ei
                  · simp only [he] at h; exact Option.noConfusion h
                  · simp only [he] at h
                    rcases hb : boardGet s1.board ei with _ | eid
                    · simp only [hb] at h; exact Option.noConfusion h
                    · simp only [hb] at h
                      cases h
                      exact h1
                · rw [if_neg hend] at h
                  cases h
                  exact h1
              · simp only [hir, eq_self_iff_true, if_true] at h
                rcases hct : ctc s1 pid (intermediateSteps p1.kind src1 dst).dropLast
                    with _ | r2
                · simp only [hct] at h; exact Option.noConfusion h
                · obtain ⟨s2, c2, m2⟩ := r2
                  simp only [hct] at h
                  have h2 : plen s2 = plen s1 := hctc s1 pid _ (s2, c2, m2) hct
                  rcases hb2 : (c2 == codeInvalid) with _ | _
                  · simp only [hb2, Bool.false_eq_true, if_false] at h
                    by_cases hend : checkFieldCode s2 pid lastStep color = codeOpponent
                    · rw [if_pos hend] at h
                      rcases hg2 : getPiece s2 pid with _ | p2
                      · simp only [hg2] at h; exact Option.noConfusion h
                      · simp only [hg2] at h
                        rcases he : (if p2.performEnPassant = true then p2.enPassantIdx
                            else some lastStep) with _ | ei
                        · simp only [he] at h; exact Option.noConfusion h
                        · simp only [he] at h
                          rcases hb : boardGet s2.board ei with _ | eid
                          · simp only [hb] at h; exact Option.noConfusion h
                          · simp only [hb] at h
                            cases h
                            exact h2.trans h1
                    · rw [if_neg hend] at h
                      cases h
                      exact h2.trans h1
                  · simp only [hb2, eq_self_iff_true, if_true] at h
                    cases h
                    exact h2.trans h1
            · rw [if_pos rfl] at h
              cases h
              exact h1

/-- The `check_check` attacker loop keeps the registry size whenever the
`check_move` it delegates to does. -/
theorem plen_ccLoopF
    (cm : GameState → PieceId → Pos → Nat → Bool → Option (GameState × Nat × MoveMsg))
    (hcm : ∀ s pid dst color t r, cm s pid dst color t = some r → plen r.1 = plen s)
    (moveTo : Pos) (color : Nat) :
    ∀ (l : List PieceId) (s : GameState) (r : GameState × Bool),
      ccLoopF cm moveTo color s l = some r → plen r.1 = plen s
  | [], s, r, h => by
    simp only [ccLoopF] at h
    cases h
    rfl
  | q :: rest, s, r, h => by
    simp only [ccLoopF] at h
    rcases hgq : getPiece s q with _ | qp
    · simp only [hgq] at h; exact Option.noConfusion h
    · simp only [hgq] at h
      split at h
      · rcases hc : cm s q moveTo qp.color true with _ | r3
        · simp only [hc] at h; exact Option.noConfusion h
        · obtain ⟨s2, c2, m2⟩ := r3
          simp only [hc] at h
          have h2 : plen s2 = plen s := hcm s q moveTo qp.color true (s2, c2, m2) hc
          split at h
          · cases h; exact h2
          · exact (plen_ccLoopF cm hcm moveTo color rest s2 r h).trans h2
      · exact plen_ccLoopF cm hcm moveTo color rest s r h

/-- Embeds `check_check` keeps the registry size whenever its `check_move`
does. -/
theorem plen_checkCheckF
    (cm : GameState → PieceId → Pos → Nat → Bool → Option (GameState × Nat × MoveMsg))
    (hcm : ∀ s pid dst color t r, cm s pid dst color t = some r → plen r.1 = plen s)
    (s : GameState) (color : Nat) (r : GameState × Bool)
    (h : checkCheckF cm s color = some r) : plen r.1 = plen s := by
  unfold checkCheckF at h
  split at h
  · exact Option.noConfusion h
  · split at h
    · exact Option.noConfusion h
    · split at h
      · exact Option.noConfusion h
      · exact plen_ccLoopF cm hcm _ color (List.range s.pieces.length) s r h

/-- Embeds `check_through_check` keeps the registry size whenever its
`check_move` does. -/
theorem plen_checkThroughCheckF
    (cm : GameState → PieceId → Pos → Nat → Bool → Option (GameState × Nat × MoveMsg))
    (hcm : ∀ s pid dst color t r, cm s pid dst color t = some r → plen r.1 = plen s)
    (pid : PieceId) :
    ∀ (l : List Pos) (s : GameState) (r : GameState × Nat × MoveMsg),
      checkThroughCheckF cm pid s l = some r → plen r.1 = plen s
  | [], s, r, h => by
    simp only [checkThroughCheckF] at h
    cases h
    rfl
  | st :: rest, s, r, h => by
    simp only [checkThroughCheckF] at h
    rcases hmp : movePieceNoR { s with isRochade := false, isRochadeGui := false }
        pid st codeEmpty with _ | r1
    · simp only [hmp] at h; exact Option.noConfusion h
    · obtain ⟨s1, mate⟩ := r1
      simp only [hmp] at h
      have h1 : plen s1 = plen s :=
        (plen_movePieceNoR _ pid st codeEmpty s1 mate hmp).trans
          (plen_withRochFlags s false false)
      rcases hg1 : getPiece s1 pid with _ | p1
      · simp only [hg1] at h; exact Option.noConfusion h
      · simp only [hg1] at h
        rcases hcc : checkCheckF cm s1 p1.color with _ | r2
        · simp only [hcc] at h; exact Option.noConfusion h
        · obtain ⟨s2, isChk⟩ := r2
          simp only [hcc] at h
          have h2 : plen s2 = plen s1 := plen_checkCheckF cm hcm s1 p1.color (s2, isChk) hcc
          rcases hrd : redoMove s2 pid mate codeEmpty false isChk with _ | s3
          · simp only [hrd] at h; exact Option.noConfusion h
          · simp only [hrd] at h
            have h3 : plen s3 = plen s2 :=
              plen_redoMove s2 pid mate codeEmpty false isChk s3 hrd
            split at h
            · cases h; exact (h3.trans h2).trans h1
            · exact (plen_checkThroughCheckF cm hcm pid rest _ r h).trans
                ((h3.trans h2).trans h1)

/-- Every fuel level of `check_move` keeps the registry size. -/
theorem plen_checkMoveFuel (fuel : Nat) :
    ∀ s pid dst color t r, checkMoveFuel fuel s pid dst color t = some r →
      plen r.1 = plen s := by
  induction fuel with
  | zero =>
    intro s pid dst color t r h
    exact plen_checkMoveF _ (fun _ _ _ _ hx => Option.noConfusion hx)
      s pid dst color t r h
  | succ n ih =>
    intro s pid dst color t r h
    exact plen_checkMoveF _
      (fun s2 pid2 inter r2 hx =>
        plen_checkThroughCheckF (checkMoveFuel n) ih pid2 inter s2 r2 hx)
      s pid dst color t r h

/-- Embeds `check_check` keeps the registry size. -/
theorem plen_checkCheck (fuel : Nat) (s : GameState) (color : Nat)
    (r : GameState × Bool) (h : checkCheck fuel s color = some r) :
    plen r.1 = plen s :=
  plen_checkCheckF (checkMoveFuel fuel) (plen_checkMoveFuel fuel) s color r h

/-- Trial execution keeps the registry size. -/
theorem plen_executeMoveT (fuel : Nat) (s : GameState) (pid : PieceId)
    (dst : Pos) (r : GameState × Bool) (h : executeMoveT fuel s pid dst = some r) :
    plen r.1 = plen s := by
  unfold executeMoveT at h
  rcases hg : getPiece s pid with _ | p
  · simp only [hg] at h; exact Option.noConfusion h
  · simp only [hg] at h
    rcases hcm : checkMove fuel s pid dst p.color true with _ | r1
    · simp only [hcm] at h; exact Option.noConfusion h
    · obtain ⟨s1, v, m⟩ := r1
      simp only [hcm] at h
      have h1 : plen s1 = plen s := plen_checkMoveFuel fuel s pid dst p.color true (s1, v, m) hcm
      split at h
      · cases h; exact h1
      · rcases hmp : movePiece s1 pid dst v s1.isRochade with _ | r2
        · simp only [hmp] at h; exact Option.noConfusion h
        · obtain ⟨s2, mate⟩ := r2
          simp only [hmp] at h
          have h2 : plen s2 = plen s1 := plen_movePiece s1 pid dst v _ s2 mate hmp
          rcases hcc : checkCheck fuel s2 p.color with _ | r3
          · simp only [hcc] at h; exact Option.noConfusion h
          · obtain ⟨s3, isChk⟩ := r3
            simp only [hcc] at h
            have h3 : plen s3 = plen s2 := plen_checkCheck fuel s2 p.color (s3, isChk) hcc
            rcases hrd : redoMove s3 pid mate v true true with _ | s4
            · simp only [hrd] at h; exact Option.noConfusion h
            · simp only [hrd] at h
              cases h
              exact ((plen_redoMove s3 pid mate v true true s4 hrd).trans
                (h3.trans h2)).trans h1

/-- The inner checkmate loop keeps the registry size. -/
theorem plen_cmInner (fuel : Nat) (pid : PieceId) :
    ∀ (l : List Pos) (s : GameState) (r : GameState × Bool),
      cmInner fuel pid s l = some r → plen r.1 = plen s
  | [], s, r, h => by
    simp only [cmInner] at h
    cases h
    rfl
  | dstp :: rest, s, r, h => by
    simp only [cmInner] at h
    rcases he : executeMoveT fuel s pid dstp with _ | r1
    · simp only [he] at h; exact Option.noConfusion h
    · obtain ⟨s1, esc⟩ := r1
      simp only [he] at h
      have h1 : plen s1 = plen s := plen_executeMoveT fuel s pid dstp (s1, esc) he
      split at h
      · cases h; exact h1
      · exact (plen_cmInner fuel pid rest s1 r h).trans h1

/-- The outer checkmate loop keeps the registry size. -/
theorem plen_cmOuter (fuel : Nat) (color : Nat) :
    ∀ (l : List PieceId) (s : GameState) (s' : GameState),
      cmOuter fuel color s l = some s' → plen s' = plen s
  | [], s, s', h => by
    simp only [cmOuter] at h
    cases h
    rfl
  | q :: rest, s, s', h => by
    simp only [cmOuter] at h
    rcases hgq : getPiece s q with _ | qp
    · simp only [hgq] at h; exact Option.noConfusion h
    · simp only [hgq] at h
      split at h
      · rcases hin : cmInner fuel q s allIdx with _ | r1
        · simp only [hin] at h; exact Option.noConfusion h
        · obtain ⟨s1, escaped⟩ := r1
          simp only [hin] at h
          have h1 : plen s1 = plen s := plen_cmInner fuel q allIdx s (s1, escaped) hin
          split at h
          · cases h
            exact (plen_withWasChecked s1 _).trans h1
          · exact (plen_cmOuter fuel color rest s1 s' h).trans h1
      · exact plen_cmOuter fuel color rest s s' h

/-- Embeds `check_checkmate` keeps the registry size. -/
theorem plen_checkCheckmate (fuel : Nat) (s : GameState) (color : Nat)
    (s' : GameState) (h : checkCheckmate fuel s color = some s') :
    plen s' = plen s := by
  unfold checkCheckmate at h
  rcases hcc : checkCheck fuel s color with _ | r1
  · simp only [hcc] at h; exact Option.noConfusion h
  · obtain ⟨s1, isChk⟩ := r1
    simp only [hcc] at h
    have h1 : plen s1 = plen s := plen_checkCheck fuel s color (s1, isChk) hcc
    split at h
    · cases h; exact h1
    · exact (plen_cmOuter fuel color (List.range s1.pieces.length) s1 s' h).trans h1

/-- Embeds `promote_pawn` grows the registry by exactly the promotion piece. -/
theorem plen_promotePawn (fuel : Nat) (s : GameState) (pid : PieceId)
    (k : Kind) (s' : GameState) (h : promotePawn fuel s pid k = some s') :
    plen s' = plen s + 1 := by
  unfold promotePawn at h
  rcases hg : getPiece s pid with _ | pawn
  · simp only [hg] at h; exact Option.noConfusion h
  · simp only [hg] at h
    rcases hp : pawn.pos with _ | ppos
    · simp only [hp] at h; exact Option.noConfusion h
    · simp only [hp] at h
      have := plen_checkCheckmate fuel _ _ s' h
      rw [this, plen_killPiece, plen_withBoard, plen_register]

/-- C10: no operation removes a piece from the registry: over any
sequence of registry operations (construction, capture, resurrection,
promotion) the registry grows monotonically and every pre-existing index
stays populated; and `kill_piece` itself only marks the captured piece
dead and off-board, leaving it enumerable at its old index. -/
theorem registry_monotone :
    (∀ s ops, RegistryGrew s (applyRegOps s ops)) ∧
    (∀ s e r p, getPiece s e = some p →
      plen (killPiece s e r) = plen s ∧
      getPiece (killPiece s e r) e =
        some { p with isAlive := false, pos := none }) := by
  have hop : ∀ s op s', applyRegOp s op = some s' → plen s ≤ plen s' := by
    intro s op s' h
    cases op with
    | register k c h1 h2 sp =>
      cases h
      rw [plen_register]
      exact Nat.le_succ _
    | kill e rp =>
      cases h
      rw [plen_killPiece]
    | resurrect sp e =>
      cases h
      rw [plen_resurrect]
    | promote fuel pid k =>
      have := plen_promotePawn fuel s pid k s' h
      omega
  have hlen : ∀ ops s s', applyRegOps s ops = some s' → plen s ≤ plen s' := by
    intro ops
    induction ops with
    | nil =>
      intro s s' h
      cases h
      exact Nat.le_refl _
    | cons op rest ih =>
      intro s s' h
      simp only [applyRegOps] at h
      rcases ho : applyRegOp s op with _ | s1
      · simp only [ho] at h; exact Option.noConfusion h
      · simp only [ho] at h
        exact (hop s op s1 ho).trans (ih s1 s' h)
  constructor
  · intro s ops s' h
    refine ⟨hlen ops s s' h, ?_⟩
    intro i hi
    have hle := hlen ops s s' h
    cases hq : s'.pieces.get? i with
    | none =>
      have := List.get?_eq_none.mp hq
      exfalso
      have : plen s' ≤ i := this
      omega
    | some v =>
      show (s'.pieces.get? i).isSome = true
      rw [hq]
      rfl
  · intro s e r p hg
    refine ⟨plen_killPiece s e r, ?_⟩
    unfold killPiece
    simp only [hg]
    split
    · unfold updPiece
      simp only [hg]
      exact getPiece_setPiece_self s e p _ hg
    · split
      · next ep hep =>
        unfold updPiece
        have hgb : getPiece { s with board := boardSet s.board ep none } e = some p := hg
        simp only [hgb]
        exact getPiece_setPiece_self { s with board := boardSet s.board ep none } e p _ hgb
      · unfold updPiece
        simp only [hg]
        exact getPiece_setPiece_self s e p _ hg

/-- Witness for C10: register a queen then capture the rook of `c6w`; the
registry only grows and the captured rook stays enumerable, dead. -/
theorem registry_monotone_w :
    RegistryGrew c6w (applyRegOps c6w
      [RegOp.register Kind.queen 1 false false (1, 1), RegOp.kill 0 false]) ∧
    (plen (killPiece c6w 0 false) = plen c6w ∧
      getPiece (killPiece c6w 0 false) 0 =
        some { { basePiece Kind.rook 1 (0, 0) with has1 := true } with
                 isAlive := false, pos := none }) :=
  ⟨registry_monotone.1 c6w _, registry_monotone.2 c6w 0 false _ rfl⟩

end Chess
